import Mathlib

/-!
# Versioned store of the FHIR Mongo server: Patient and Practitioner services

Shallow embedding of `src/services/patient/patient.service.js`, of the `search` and
`create` of `src/services/practitioner/practitioner.service.js`, and of
`src/services/deviceusestatement/deviceusestatement.service.js`.

* A MongoDB collection is the list of its documents in natural (insertion) order.
* A document is a typed record: the storage key `_id`, the logical `id`, the `meta`
  element, and the remaining resource fields as a key/value list of JSON values.
  The typing is that of the FHIR resource classes (`id` and `meta.versionId` are strings,
  `meta` is an object).
* A promise is an `Outcome`: resolved with a value or rejected with a reason. Service
  functions that write return the outcome together with the store they leave behind.
* Every storage call takes an `Option MongoError`: the infrastructure failure, if any, with
  which the driver calls back instead of performing the operation.
-/

namespace FhirMongo

/-! ## Data model -/

/-- JSON values, the values of resource fields. -/
inductive Json where
  | null
  | bool (b : Bool)
  | num (n : Int)
  | str (s : String)
  | arr (xs : List Json)
  | obj (fs : List (String × Json))

mutual
/-- Decision procedure for equality of JSON values. -/
def Json.decEq : (a b : Json) → Decidable (a = b)
  | .null, .null => isTrue rfl
  | .bool a, .bool b =>
    if h : a = b then isTrue (by rw [h]) else isFalse (by intro e; cases e; exact h rfl)
  | .num a, .num b =>
    if h : a = b then isTrue (by rw [h]) else isFalse (by intro e; cases e; exact h rfl)
  | .str a, .str b =>
    if h : a = b then isTrue (by rw [h]) else isFalse (by intro e; cases e; exact h rfl)
  | .arr a, .arr b =>
    match Json.decEqList a b with
    | isTrue h => isTrue (by rw [h])
    | isFalse h => isFalse (by intro e; cases e; exact h rfl)
  | .obj a, .obj b =>
    match Json.decEqFields a b with
    | isTrue h => isTrue (by rw [h])
    | isFalse h => isFalse (by intro e; cases e; exact h rfl)
  | .null, .bool _ => isFalse (by intro e; cases e)
  | .null, .num _ => isFalse (by intro e; cases e)
  | .null, .str _ => isFalse (by intro e; cases e)
  | .null, .arr _ => isFalse (by intro e; cases e)
  | .null, .obj _ => isFalse (by intro e; cases e)
  | .bool _, .null => isFalse (by intro e; cases e)
  | .bool _, .num _ => isFalse (by intro e; cases e)
  | .bool _, .str _ => isFalse (by intro e; cases e)
  | .bool _, .arr _ => isFalse (by intro e; cases e)
  | .bool _, .obj _ => isFalse (by intro e; cases e)
  | .num _, .null => isFalse (by intro e; cases e)
  | .num _, .bool _ => isFalse (by intro e; cases e)
  | .num _, .str _ => isFalse (by intro e; cases e)
  | .num _, .arr _ => isFalse (by intro e; cases e)
  | .num _, .obj _ => isFalse (by intro e; cases e)
  | .str _, .null => isFalse (by intro e; cases e)
  | .str _, .bool _ => isFalse (by intro e; cases e)
  | .str _, .num _ => isFalse (by intro e; cases e)
  | .str _, .arr _ => isFalse (by intro e; cases e)
  | .str _, .obj _ => isFalse (by intro e; cases e)
  | .arr _, .null => isFalse (by intro e; cases e)
  | .arr _, .bool _ => isFalse (by intro e; cases e)
  | .arr _, .num _ => isFalse (by intro e; cases e)
  | .arr _, .str _ => isFalse (by intro e; cases e)
  | .arr _, .obj _ => isFalse (by intro e; cases e)
  | .obj _, .null => isFalse (by intro e; cases e)
  | .obj _, .bool _ => isFalse (by intro e; cases e)
  | .obj _, .num _ => isFalse (by intro e; cases e)
  | .obj _, .str _ => isFalse (by intro e; cases e)
  | .obj _, .arr _ => isFalse (by intro e; cases e)
/-- Decision procedure for equality of JSON arrays. -/
def Json.decEqList : (a b : List Json) → Decidable (a = b)
  | [], [] => isTrue rfl
  | [], _ :: _ => isFalse (by intro e; cases e)
  | _ :: _, [] => isFalse (by intro e; cases e)
  | x :: xs, y :: ys =>
    match Json.decEq x y, Json.decEqList xs ys with
    | isTrue h1, isTrue h2 => isTrue (by rw [h1, h2])
    | isFalse h, _ => isFalse (by intro e; cases e; exact h rfl)
    | _, isFalse h => isFalse (by intro e; cases e; exact h rfl)
/-- Decision procedure for equality of JSON objects (ordered field lists). -/
def Json.decEqFields : (a b : List (String × Json)) → Decidable (a = b)
  | [], [] => isTrue rfl
  | [], _ :: _ => isFalse (by intro e; cases e)
  | _ :: _, [] => isFalse (by intro e; cases e)
  | (k, x) :: xs, (l, y) :: ys =>
    if hk : k = l then
      match Json.decEq x y, Json.decEqFields xs ys with
      | isTrue h1, isTrue h2 => isTrue (by rw [hk, h1, h2])
      | isFalse h, _ => isFalse (by intro e; cases e; exact h rfl)
      | _, isFalse h => isFalse (by intro e; cases e; exact h rfl)
    else isFalse (by intro e; cases e; exact hk rfl)
end

instance : DecidableEq Json := Json.decEq

/-- The FHIR `Meta` element: `versionId`, `lastUpdated`, and its other fields
(profile, security, tag). An absent field is `none`. -/
structure Meta where
  versionId : Option String
  lastUpdated : Option String
  extra : List (String × Json)
  deriving DecidableEq

/-- The JSON of a resource as the caller hands it over (`resource.toJSON()`): it has no
storage key yet. -/
structure Resource where
  id : Option String
  meta : Option Meta
  fields : List (String × Json)
  deriving DecidableEq

/-- A stored document: a resource JSON under the storage key `_id`. -/
structure Doc where
  _id : String
  id : Option String
  meta : Option Meta
  fields : List (String × Json)
  deriving DecidableEq

/-- The error object with which the MongoDB driver calls back; the services read only its
`message`. -/
structure MongoError where
  message : String
  deriving DecidableEq

/-- What a service promise is rejected with: the storage error itself, or the object
`{ code, message }` that `remove` builds. -/
inductive Rejection where
  | storage (err : MongoError)
  | conflict (code : Nat) (message : String)
  deriving DecidableEq

/-- A settled promise. -/
inductive Outcome (α : Type) where
  | resolved (value : α)
  | rejected (reason : Rejection)
  deriving DecidableEq

/-- A collection: its documents in natural order. -/
abbrev Collection := List Doc

/-- The database handle `globals.get(CLIENT_DB)`, restricted to the two collections of the
Patient service: `COLLECTION.PATIENT` (current records) and `COLLECTION.PATIENT + 'History'`. -/
structure Db where
  patient : Collection
  patientHistory : Collection
  deriving DecidableEq

/-! ## The collection accessor (MongoDB driver) -/

/-- The filter `{ id: id }`: the document's `id` field equals the string. -/
def idIs (id : String) (d : Doc) : Bool := d.id == some id

/-- The filter `{ id: id, 'meta.versionId': v }`. -/
def idVersionIs (id v : String) (d : Doc) : Bool :=
  d.id == some id && (d.meta.bind fun m => m.versionId) == some v

/-- E11000: an insert whose `_id` is already taken. -/
def duplicateKey : MongoError := ⟨"E11000 duplicate key error"⟩

/-- The error of an update that would change the `_id` of the matched document. -/
def immutableId : MongoError := ⟨"Performing an update on the path _id would modify the immutable field _id"⟩

/-- `collection.findOne(filter, cb)`: the first matching document, if any. -/
def Collection.findOne (c : Collection) (p : Doc → Bool) (fault : Option MongoError) :
    Except MongoError (Option Doc) :=
  match fault with
  | some e => .error e
  | none => .ok (c.find? p)

/-- `collection.find(filter, cb)` followed by `toArray()`: all matching documents. -/
def Collection.find (c : Collection) (p : Doc → Bool) (fault : Option MongoError) :
    Except MongoError (List Doc) :=
  match fault with
  | some e => .error e
  | none => .ok (c.filter p)

/-- `collection.insert(doc, cb)`: appends the document unless its `_id` is taken. The
result is `res.ops[0]`, the inserted document, and the collection afterwards. -/
def Collection.insert (c : Collection) (doc : Doc) (fault : Option MongoError) :
    Except MongoError (Doc × Collection) :=
  match fault with
  | some e => .error e
  | none => if c.any (fun d => d._id == doc._id) then .error duplicateKey else .ok (doc, c ++ [doc])

/-- `collection.remove(filter, cb)`: deletes every matching document. The result is
`result.n`, the number of deleted documents, and the collection afterwards. -/
def Collection.remove (c : Collection) (p : Doc → Bool) (fault : Option MongoError) :
    Except MongoError (Nat × Collection) :=
  match fault with
  | some e => .error e
  | none => .ok ((c.filter p).length, c.filter fun d => !p d)

/-- Field assignment on a JSON object: an existing key keeps its place. -/
def setField (fs : List (String × Json)) (k : String) (v : Json) : List (String × Json) :=
  match fs with
  | [] => [(k, v)]
  | (k', v') :: rest => if k' = k then (k, v) :: rest else (k', v') :: setField rest k v

/-- The update `{ $set: doc }` applied to a document: every field of `doc` is written, every
other field of the document stays. -/
def applySet (old doc : Doc) : Doc :=
  { _id := doc._id
    id := match doc.id with
      | some i => some i
      | none => old.id
    meta := match doc.meta with
      | some m => some m
      | none => old.meta
    fields := doc.fields.foldl (fun acc kv => setField acc kv.1 kv.2) old.fields }

/-- Replace the first document matching `p` by `f` of it. -/
def replaceFirst (p : Doc → Bool) (f : Doc → Doc) : Collection → Collection
  | [] => []
  | d :: ds => if p d then f d :: ds else d :: replaceFirst p f ds

/-- The answer of `findOneAndUpdate`: `value` is the document as it was before the update
(`null` after an insert), `updatedExisting` is `lastErrorObject.updatedExisting`. -/
structure FindAndModifyResult where
  value : Option Doc
  updatedExisting : Bool
  deriving DecidableEq

/-- `collection.findOneAndUpdate({ id: id }, { $set: doc }, { upsert: true }, cb)`.
The first document whose `id` matches is updated in place; its `_id` cannot change. Without
a match a new document is inserted, made of the filter's equality `id` and the `$set`
fields; the insert fails when its `_id` is taken. -/
def Collection.findOneAndUpdate (c : Collection) (id : String) (doc : Doc)
    (fault : Option MongoError) : Except MongoError (FindAndModifyResult × Collection) :=
  match fault with
  | some e => .error e
  | none =>
    match c.find? (idIs id) with
    | some old =>
      if old._id = doc._id then
        .ok ({ value := some old, updatedExisting := true },
          replaceFirst (idIs id) (fun d => applySet d doc) c)
      else .error immutableId
    | none =>
      if c.any (fun d => d._id == doc._id) then .error duplicateKey
      else
        .ok ({ value := none, updatedExisting := false },
          c ++ [applySet { _id := doc._id, id := some id, meta := none, fields := [] } doc])

/-- `Object.assign(json, { _id: key })`. -/
def assignId (r : Resource) (key : String) : Doc :=
  { _id := key, id := r.id, meta := r.meta, fields := r.fields }

/-- The storage key that `update` gives the history record, line 344:
`id + cleaned.meta.versionId`. -/
def historyKey (id versionId : String) : String := id ++ versionId

/-! ## JavaScript numbers in the version computation -/

/-- The characters `parseInt` skips at the start of its input (WhiteSpace and LineTerminator
code points). -/
def isJsWhiteSpace (c : Char) : Bool :=
  let n := c.toNat
  n == 9 || n == 10 || n == 11 || n == 12 || n == 13 || n == 32 || n == 160 || n == 5760 ||
  (8192 ≤ n && n ≤ 8202) || n == 8232 || n == 8233 || n == 8239 || n == 8287 || n == 12288 ||
  n == 65279

/-- Value of a character as a digit of the given radix (10 or 16), if it is one. -/
def digitValue (radix : Nat) (c : Char) : Option Nat :=
  let n := c.toNat
  if 48 ≤ n ∧ n ≤ 57 then some (n - 48)
  else if radix = 16 ∧ 97 ≤ n ∧ n ≤ 102 then some (n - 87)
  else if radix = 16 ∧ 65 ≤ n ∧ n ≤ 70 then some (n - 55)
  else none

/-- The longest leading run of digits of the radix, as digit values. -/
def leadingDigits (radix : Nat) : List Char → List Nat
  | [] => []
  | c :: cs =>
    match digitValue radix c with
    | some v => v :: leadingDigits radix cs
    | none => []

/-- Sign of the input of `parseInt`: whether it is negative, and the rest. -/
def splitSign : List Char → Bool × List Char
  | '-' :: cs => (true, cs)
  | '+' :: cs => (false, cs)
  | cs => (false, cs)

/-- Radix of the input of `parseInt` called without a radix: 16 after `0x` or `0X`, else 10;
and the rest. -/
def splitRadix : List Char → Nat × List Char
  | '0' :: 'x' :: cs => (16, cs)
  | '0' :: 'X' :: cs => (16, cs)
  | cs => (10, cs)

/-- The mathematical integer `parseInt(s)` denotes; `none` is `NaN`. Leading white space is
skipped, a sign and a hexadecimal marker are read, then the longest run of digits; whatever
follows is ignored, and no digit at all gives `NaN`. The digits are read exactly here; the
number value is the nearest double, which `toNumber` computes (the standard lets an engine
approximate after the twentieth digit, Node rounds the exact integer). -/
def parseInt (s : String) : Option Int :=
  let (negative, rest) := splitSign (s.data.dropWhile isJsWhiteSpace)
  let (radix, rest) := splitRadix rest
  match leadingDigits radix rest with
  | [] => none
  | ds =>
    let mathInt : Nat := ds.foldl (fun acc d => acc * radix + d) 0
    some (if negative then - (mathInt : Int) else (mathInt : Int))

/-- Number of binary digits of `m`, computed within `fuel` halvings. -/
def bitLengthAux : Nat → Nat → Nat
  | 0, _ => 0
  | fuel + 1, m => if m = 0 then 0 else bitLengthAux fuel (m / 2) + 1

/-- Number of binary digits of a natural number. -/
def bitLength (n : Nat) : Nat := bitLengthAux n n

/-- The double nearest to a natural number, ties to the even significand; `none` when the
number rounds to 2^1024, beyond the largest double (the number value is then an infinity).
Every natural number up to 2^53 is a double. -/
def roundToDouble (n : Nat) : Option Nat :=
  if n ≤ 2 ^ 53 then some n
  else
    let e := bitLength n - 53
    let q := n / 2 ^ e
    let r := n % 2 ^ e
    let half := 2 ^ (e - 1)
    let q' := if half < r ∨ (r = half ∧ q % 2 = 1) then q + 1 else q
    if 1024 < bitLength (q' * 2 ^ e) then none else some (q' * 2 ^ e)

/-- The values a JavaScript number takes in `parseInt(s) + 1`: `NaN`, an infinity, or a
double that is an integer. -/
inductive JsNumber where
  | nan
  | infinity (negative : Bool)
  | finite (v : Int)
  deriving DecidableEq

/-- The number value of a mathematical integer: the nearest double. -/
def toNumber (v : Int) : JsNumber :=
  match roundToDouble v.natAbs with
  | none => .infinity (decide (v < 0))
  | some m => .finite (if v < 0 then - (m : Int) else (m : Int))

/-- The sum `x + 1` of JavaScript numbers: the exact sum, rounded to the nearest double. -/
def addOne : JsNumber → JsNumber
  | .finite v => toNumber (v + 1)
  | x => x

/-- Whether the natural number `c` rounds to the double `x`, for `x` beyond 2^53: `c` lies
between the midpoints to the neighbours of `x`, the midpoints included when the significand
of `x` is even. -/
def roundsTo (x c : Nat) : Bool :=
  let e := bitLength x - 53
  let q := x / 2 ^ e
  let below := if q = 2 ^ 52 then 2 ^ (e - 1) else 2 ^ e
  if q % 2 = 0 then decide (2 * x - below ≤ 2 * c ∧ 2 * c ≤ 2 * x + 2 ^ e)
  else decide (2 * x - below < 2 * c ∧ 2 * c < 2 * x + 2 ^ e)

/-- The numbers `s * 10 ^ j` with a `k`-digit `s` that round to `x`, as pairs `(s, j)`: for
each number of trailing zeros that gives about as many digits as `x` has, the multiple of
`10 ^ j` below `x` and the one above. -/
def shortCandidates (x k : Nat) : List (Nat × Nat) :=
  let d := (toString x).length
  [(x / 10 ^ (d + 1 - k), d + 1 - k), (x / 10 ^ (d + 1 - k) + 1, d + 1 - k),
    (x / 10 ^ (d - k), d - k), (x / 10 ^ (d - k) + 1, d - k),
    (x / 10 ^ (d - k - 1), d - k - 1), (x / 10 ^ (d - k - 1) + 1, d - k - 1)].filter fun sj =>
    decide (10 ^ (k - 1) ≤ sj.1 ∧ sj.1 < 10 ^ k) && roundsTo x (sj.1 * 10 ^ sj.2)

/-- Distance of the number `s * 10 ^ j` from `x`. -/
def distance (x : Nat) (sj : Nat × Nat) : Nat :=
  if x ≤ sj.1 * 10 ^ sj.2 then sj.1 * 10 ^ sj.2 - x else x - sj.1 * 10 ^ sj.2

/-- The better of two candidates: the closer to `x`, and of two equally close the even. -/
def better (x : Nat) (a b : Nat × Nat) : Nat × Nat :=
  if distance x b < distance x a then b
  else if distance x b = distance x a ∧ b.1 % 2 = 0 ∧ a.1 % 2 = 1 then b
  else a

/-- The shortest decimal that rounds to the double `x`: the least number of digits `k`, tried
from `k` upwards within `fuel` steps, and for it the best candidate. -/
def shortestAux (x : Nat) : Nat → Nat → Nat × Nat
  | 0, _ => (x, 0)
  | fuel + 1, k =>
    match shortCandidates x k with
    | [] => shortestAux x fuel (k + 1)
    | c :: cs => cs.foldl (better x) c

/-- The digits `s` and the number of trailing zeros `j` with which Number::toString prints
the double `x` beyond 2^53: seventeen digits always suffice. -/
def shortest (x : Nat) : Nat × Nat := shortestAux x 17 1

/-- Number::toString of a double that is a natural number. Up to 2^53 these are the decimal
digits of the number. Beyond, the shortest digits that round to it, followed by zeros when
the number has at most 21 digits, and in exponent form otherwise. -/
def positiveToString (x : Nat) : String :=
  if x ≤ 2 ^ 53 then toString x
  else
    let (s, j) := shortest x
    let digits := (toString s).data
    let n := digits.length + j
    if n ≤ 21 then ⟨digits ++ List.replicate j '0'⟩
    else
      match digits with
      | [] => ""
      | [c] => ⟨[c]⟩ ++ "e+" ++ toString (n - 1)
      | c :: cs => ⟨c :: '.' :: cs⟩ ++ "e+" ++ toString (n - 1)

/-- Number::toString on the values of `JsNumber`. -/
def numberToString : JsNumber → String
  | .nan => "NaN"
  | .infinity false => "Infinity"
  | .infinity true => "-Infinity"
  | .finite v => if v < 0 then "-" ++ positiveToString v.natAbs else positiveToString v.natAbs

/-- The template literal of `parseInt(versionId) + 1`, line 324. A missing `versionId` and a
string without leading digits give `NaN`, and `NaN + 1` prints as `NaN`. Otherwise the
integer read is rounded to a double, one is added in double arithmetic, and the sum is
printed by Number::toString. -/
def nextVersionId (versionId : Option String) : String :=
  match versionId with
  | none => "NaN"
  | some s =>
    match parseInt s with
    | none => "NaN"
    | some v => numberToString (addOne (toNumber v))

/-! ## Search arguments and compiled queries -/

/-- The argument object of the search operations. Every argument is a string or missing;
`id` and `version_id` are the route parameters of the read-by-id operations. -/
structure Args where
  base : Option String := none
  id : Option String := none
  version_id : Option String := none
  _id : Option String := none
  active : Option String := none
  address : Option String := none
  addressCity : Option String := none
  addressCountry : Option String := none
  addressPostalCode : Option String := none
  addressState : Option String := none
  addressUse : Option String := none
  animalBreed : Option String := none
  animalSpecies : Option String := none
  birthDate : Option String := none
  deathDate : Option String := none
  deceased : Option String := none
  email : Option String := none
  family : Option String := none
  gender : Option String := none
  generalPractitioner : Option String := none
  given : Option String := none
  identifier : Option String := none
  language : Option String := none
  link : Option String := none
  name : Option String := none
  organization : Option String := none
  phone : Option String := none
  telecom : Option String := none
  communication : Option String := none
  phonetic : Option String := none
  deriving DecidableEq

/-- The query builders of `utils/service.utils`, which the services import. `F` is the type
of the filter fragments they return; the builders that return an object are given by its
own keys in enumeration order. -/
structure Builders (F : Type) where
  stringQueryBuilder : String → F
  tokenQueryBuilder : String → String → String → String → List (String × F)
  referenceQueryBuilder : String → String → List (String × F)
  addressQueryBuilder : String → List F
  nameQueryBuilder : String → List F
  dateQueryBuilder : String → String → String → F

/-- A value stored in the query object: a string, a boolean, a fragment of a builder, or
the array stored under `$and`. -/
inductive QueryValue (F : Type) where
  | str (s : String)
  | bool (b : Bool)
  | frag (f : F)
  | all (ors : List F)
  deriving DecidableEq

/-- The query object: its keys in insertion order. -/
abbrev Query (F : Type) := List (String × QueryValue F)

/-- The assignment `query[k] = v`: an existing key keeps its place and takes the value. -/
def Query.set {F : Type} (q : Query F) (k : String) (v : QueryValue F) : Query F :=
  match q with
  | [] => [(k, v)]
  | (k', v') :: rest => if k' = k then (k, v) :: rest else (k', v') :: Query.set rest k v

/-- The loop `for (let i in queryBuilder) query[i] = queryBuilder[i]`. -/
def Query.setAll {F : Type} (q : Query F) (built : List (String × F)) : Query F :=
  built.foldl (fun acc kv => Query.set acc kv.1 (.frag kv.2)) q

/-- The statement `if (arg) ...` on a string argument: the body runs, with the argument, when
the argument is present and not the empty string. -/
def ifSet {α : Type} (arg : Option String) (body : String → α → α) (state : α) : α :=
  match arg with
  | some v => if v = "" then state else body v state
  | none => state

/-- Whether a document satisfies a query: it satisfies every entry. How MongoDB evaluates one
entry (a key and its value) on a document is the parameter `holds`. -/
def matchesQuery {F : Type} (holds : String → QueryValue F → Doc → Bool) (q : Query F)
    (d : Doc) : Bool :=
  q.all fun kv => holds kv.1 kv.2 d

/-- Modelled from the spec: the builders of `utils/service.utils` are not in `src`. By
section 4.1 a token builder and a reference builder return a mapping from field paths to
fragments. The field paths of a token builder lie under the path it is given (they start with
that path and a dot), those of a reference builder start with the path it is given, and as
keys of one object they are distinct. -/
structure Builders.FieldPaths {F : Type} (b : Builders F) : Prop where
  token_under : ∀ v t field s, ∀ kv ∈ b.tokenQueryBuilder v t field s,
    (field.data ++ ['.']) <+: kv.1.data
  token_distinct : ∀ v t field s, ((b.tokenQueryBuilder v t field s).map Prod.fst).Nodup
  reference_under : ∀ v path, ∀ kv ∈ b.referenceQueryBuilder v path, path.data <+: kv.1.data
  reference_distinct : ∀ v path, ((b.referenceQueryBuilder v path).map Prod.fst).Nodup

/-- A list of decimal digit characters. -/
def IsDecimal (l : List Char) : Prop := ∀ c ∈ l, ∃ v, v < 10 ∧ c = Nat.digitChar v

/-! ## Patient service -/

namespace Patient

/-- `searchById`, lines 241-265: `findOne({ id: id.toString() })` on the collection named
`COLLECTION.PATIENT + 'History'`; resolves with the document, or with nothing. -/
def searchById (db : Db) (err : Option MongoError) (id : String) : Outcome (Option Doc) :=
  let collection := db.patientHistory
  match collection.findOne (idIs id) err with
  | .error e => .rejected (.storage e)
  | .ok patient => .resolved patient

/-- The value `create` resolves with: `{ id: patient.id }`. -/
structure CreateResult where
  id : Option String
  deriving DecidableEq

/-- `create`, lines 274-293: inserts `Object.assign(resource.toJSON(), { _id: id })` into
the current collection and resolves with the `id` field of the inserted document. -/
def create (db : Db) (err : Option MongoError) (id : String) (resource : Resource) :
    Outcome CreateResult × Db :=
  let collection := db.patient
  let doc := assignId resource id
  match collection.insert doc err with
  | .error e => (.rejected (.storage e), db)
  | .ok (patient, collection') => (.resolved { id := patient.id }, { db with patient := collection' })

/-- The value `update` resolves with. `id` is `res.value && res.value.id`, `created` is
`res.lastErrorObject && !res.lastErrorObject.updatedExisting`. -/
structure UpdateResult where
  id : Option String
  created : Bool
  resource_version : String
  deriving DecidableEq

/-- The `meta` that `update` puts on the resource, lines 321-329, with its `versionId`.
With a current record that has a `meta`, that `meta` with `versionId` replaced by
`parseInt(versionId) + 1`; otherwise `{ versionId: '1', lastUpdated: now }`. -/
def newMeta (now : String) (data : Option Doc) : String × Meta :=
  match data.bind fun d => d.meta with
  | some meta =>
    let versionId := nextVersionId meta.versionId
    (versionId, { meta with versionId := some versionId })
  | none => ("1", { versionId := some "1", lastUpdated := some now, extra := [] })

/-- `update`, lines 302-358. `now` is `moment.utc().format(...)`. The three storage calls
are `findOne` on the current collection, `findOneAndUpdate` on it, and `insert` into the
history collection; a failed call rejects with its error and what was written before it
stays written. -/
def update (db : Db) (now : String) (err err2 err3 : Option MongoError) (id : String)
    (resource : Resource) : Outcome UpdateResult × Db :=
  let collection := db.patient
  match collection.findOne (idIs id) err with
  | .error e => (.rejected (.storage e), db)
  | .ok data =>
    let (versionId, meta) := newMeta now data
    let cleaned : Resource := { resource with meta := some meta }
    let doc := assignId cleaned id
    match collection.findOneAndUpdate id doc err2 with
    | .error e2 => (.rejected (.storage e2), db)
    | .ok (res, collection') =>
      let db1 : Db := { db with patient := collection' }
      let historyCollection := db1.patientHistory
      let historyPatient := assignId cleaned (id ++ versionId)
      match historyCollection.insert historyPatient err3 with
      | .error e3 => (.rejected (.storage e3), db1)
      | .ok (_, historyCollection') =>
        (.resolved
            { id := res.value.bind fun d => d.id
              created := !res.updatedExisting
              resource_version := versionId },
          { db1 with patientHistory := historyCollection' })

/-- The value `remove` resolves with: `{ deleted: _.result && _.result.n }`. -/
structure RemoveResult where
  deleted : Nat
  deriving DecidableEq

/-- `remove`, lines 367-406: deletes the documents with the id from the current collection,
then from the history collection. A failed delete rejects with `{ code: 409, message }`;
after a failed first delete the second is not attempted. -/
def remove (db : Db) (err err2 : Option MongoError) (id : String) : Outcome RemoveResult × Db :=
  let collection := db.patient
  match collection.remove (idIs id) err with
  | .error e => (.rejected (.conflict 409 e.message), db)
  | .ok (n, collection') =>
    let db1 : Db := { db with patient := collection' }
    let historyCollection := db1.patientHistory
    match historyCollection.remove (idIs id) err2 with
    | .error e2 => (.rejected (.conflict 409 e2.message), db1)
    | .ok (_, historyCollection') =>
      (.resolved { deleted := n }, { db1 with patientHistory := historyCollection' })

/-- `searchByVersionId`, lines 408-435: `findOne` on the history collection by `id` and
`meta.versionId`. -/
def searchByVersionId (db : Db) (err : Option MongoError) (id version_id : String) :
    Outcome (Option Doc) :=
  let collection := db.patientHistory
  match collection.findOne (idVersionIs id version_id) err with
  | .error e => .rejected (.storage e)
  | .ok patient => .resolved patient

/-- The query object that `search` builds, lines 60-209. -/
def searchQuery {F : Type} (b : Builders F) (args : Args) : Query F :=
  let ors : List F := []
  let ors : List F := ifSet args.address (fun (v : String) (ors : List F) => ors ++ b.addressQueryBuilder v) ors
  let ors : List F := ifSet args.name (fun (v : String) (ors : List F) => ors ++ b.nameQueryBuilder v) ors
  let query : Query F := []
  let query : Query F := if ors.length ≠ 0 then query.set "$and" (.all ors) else query
  let query : Query F := ifSet args._id (fun (v : String) (q : Query F) => q.set "id" (.str v)) query
  let query : Query F := ifSet args.active (fun (v : String) (q : Query F) => q.set "active" (.bool (v == "true"))) query
  let query : Query F := ifSet args.addressCity
    (fun (v : String) (q : Query F) => q.set "address.city" (.frag (b.stringQueryBuilder v))) query
  let query : Query F := ifSet args.addressCountry
    (fun (v : String) (q : Query F) => q.set "address.country" (.frag (b.stringQueryBuilder v))) query
  let query : Query F := ifSet args.addressPostalCode
    (fun (v : String) (q : Query F) => q.set "address.postalCode" (.frag (b.stringQueryBuilder v))) query
  let query : Query F := ifSet args.addressState
    (fun (v : String) (q : Query F) => q.set "address.state" (.frag (b.stringQueryBuilder v))) query
  let query : Query F := ifSet args.addressUse (fun (v : String) (q : Query F) => q.set "address.use" (.str v)) query
  let query : Query F := ifSet args.animalBreed
    (fun (v : String) (q : Query F) => q.setAll (b.tokenQueryBuilder v "code" "animal.breed.coding" "")) query
  let query : Query F := ifSet args.animalSpecies
    (fun (v : String) (q : Query F) => q.setAll (b.tokenQueryBuilder v "code" "animal.species.coding" "")) query
  let query : Query F := ifSet args.birthDate
    (fun (v : String) (q : Query F) => q.set "birthDate" (.frag (b.dateQueryBuilder v "date" ""))) query
  let query : Query F := ifSet args.deathDate
    (fun (v : String) (q : Query F) => q.set "deceasedDateTime" (.frag (b.dateQueryBuilder v "dateTime" ""))) query
  let query : Query F := ifSet args.deceased
    (fun (v : String) (q : Query F) => q.set "deceasedBoolean" (.bool (v == "true"))) query
  let query : Query F := ifSet args.email
    (fun (v : String) (q : Query F) => q.setAll (b.tokenQueryBuilder v "value" "telecom" "email")) query
  let query : Query F := ifSet args.family
    (fun (v : String) (q : Query F) => q.set "name.family" (.frag (b.stringQueryBuilder v))) query
  let query : Query F := ifSet args.gender (fun (v : String) (q : Query F) => q.set "gender" (.str v)) query
  let query : Query F := ifSet args.generalPractitioner
    (fun (v : String) (q : Query F) => q.setAll (b.referenceQueryBuilder v "generalPractitioner.reference")) query
  let query : Query F := ifSet args.given
    (fun (v : String) (q : Query F) => q.set "name.given" (.frag (b.stringQueryBuilder v))) query
  let query : Query F := ifSet args.identifier
    (fun (v : String) (q : Query F) => q.setAll (b.tokenQueryBuilder v "value" "identifier" "")) query
  let query : Query F := ifSet args.language
    (fun (v : String) (q : Query F) => q.setAll (b.tokenQueryBuilder v "code" "communication.language.coding" "")) query
  let query : Query F := ifSet args.link
    (fun (v : String) (q : Query F) => q.setAll (b.referenceQueryBuilder v "link.other.reference")) query
  let query : Query F := ifSet args.organization
    (fun (v : String) (q : Query F) => q.setAll (b.referenceQueryBuilder v "managingOrganization.reference")) query
  let query : Query F := ifSet args.phone
    (fun (v : String) (q : Query F) => q.setAll (b.tokenQueryBuilder v "value" "telecom" "phone")) query
  let query : Query F := ifSet args.telecom
    (fun (v : String) (q : Query F) => q.setAll (b.tokenQueryBuilder v "value" "telecom" "")) query
  query

/-- `search`, lines 57-231: `find(query)` on the current collection with the query built from
the arguments; resolves with the matching documents. -/
def search {F : Type} (b : Builders F) (holds : String → QueryValue F → Doc → Bool)
    (db : Db) (err : Option MongoError) (args : Args) : Outcome (List Doc) :=
  let query := searchQuery b args
  let collection := db.patient
  match collection.find (matchesQuery holds query) err with
  | .error e => .rejected (.storage e)
  | .ok patients => .resolved patients

/-- The query object that `history` builds, lines 621-770. -/
def historyQuery {F : Type} (b : Builders F) (args : Args) : Query F :=
  let ors : List F := []
  let ors : List F := ifSet args.address (fun (v : String) (ors : List F) => ors ++ b.addressQueryBuilder v) ors
  let ors : List F := ifSet args.name (fun (v : String) (ors : List F) => ors ++ b.nameQueryBuilder v) ors
  let query : Query F := []
  let query : Query F := if ors.length ≠ 0 then query.set "$and" (.all ors) else query
  let query : Query F := ifSet args._id (fun (v : String) (q : Query F) => q.set "id" (.str v)) query
  let query : Query F := ifSet args.active (fun (v : String) (q : Query F) => q.set "active" (.bool (v == "true"))) query
  let query : Query F := ifSet args.addressCity
    (fun (v : String) (q : Query F) => q.set "address.city" (.frag (b.stringQueryBuilder v))) query
  let query : Query F := ifSet args.addressCountry
    (fun (v : String) (q : Query F) => q.set "address.country" (.frag (b.stringQueryBuilder v))) query
  let query : Query F := ifSet args.addressPostalCode
    (fun (v : String) (q : Query F) => q.set "address.postalCode" (.frag (b.stringQueryBuilder v))) query
  let query : Query F := ifSet args.addressState
    (fun (v : String) (q : Query F) => q.set "address.state" (.frag (b.stringQueryBuilder v))) query
  let query : Query F := ifSet args.addressUse (fun (v : String) (q : Query F) => q.set "address.use" (.str v)) query
  let query : Query F := ifSet args.animalBreed
    (fun (v : String) (q : Query F) => q.setAll (b.tokenQueryBuilder v "code" "animal.breed.coding" "")) query
  let query : Query F := ifSet args.animalSpecies
    (fun (v : String) (q : Query F) => q.setAll (b.tokenQueryBuilder v "code" "animal.species.coding" "")) query
  let query : Query F := ifSet args.birthDate
    (fun (v : String) (q : Query F) => q.set "birthDate" (.frag (b.dateQueryBuilder v "date" ""))) query
  let query : Query F := ifSet args.deathDate
    (fun (v : String) (q : Query F) => q.set "deceasedDateTime" (.frag (b.dateQueryBuilder v "dateTime" ""))) query
  let query : Query F := ifSet args.deceased
    (fun (v : String) (q : Query F) => q.set "deceasedBoolean" (.bool (v == "true"))) query
  let query : Query F := ifSet args.email
    (fun (v : String) (q : Query F) => q.setAll (b.tokenQueryBuilder v "value" "telecom" "email")) query
  let query : Query F := ifSet args.family
    (fun (v : String) (q : Query F) => q.set "name.family" (.frag (b.stringQueryBuilder v))) query
  let query : Query F := ifSet args.gender (fun (v : String) (q : Query F) => q.set "gender" (.str v)) query
  let query : Query F := ifSet args.generalPractitioner
    (fun (v : String) (q : Query F) => q.setAll (b.referenceQueryBuilder v "generalPractitioner.reference")) query
  let query : Query F := ifSet args.given
    (fun (v : String) (q : Query F) => q.set "name.given" (.frag (b.stringQueryBuilder v))) query
  let query : Query F := ifSet args.identifier
    (fun (v : String) (q : Query F) => q.setAll (b.tokenQueryBuilder v "value" "identifier" "")) query
  let query : Query F := ifSet args.language
    (fun (v : String) (q : Query F) => q.setAll (b.tokenQueryBuilder v "code" "communication.language.coding" "")) query
  let query : Query F := ifSet args.link
    (fun (v : String) (q : Query F) => q.setAll (b.referenceQueryBuilder v "link.other.reference")) query
  let query : Query F := ifSet args.organization
    (fun (v : String) (q : Query F) => q.setAll (b.referenceQueryBuilder v "managingOrganization.reference")) query
  let query : Query F := ifSet args.phone
    (fun (v : String) (q : Query F) => q.setAll (b.tokenQueryBuilder v "value" "telecom" "phone")) query
  let query : Query F := ifSet args.telecom
    (fun (v : String) (q : Query F) => q.setAll (b.tokenQueryBuilder v "value" "telecom" "")) query
  query

/-- `history`, lines 616-792: `find(query)` on the history collection with the query built
from the arguments; resolves with the matching documents. -/
def history {F : Type} (b : Builders F) (holds : String → QueryValue F → Doc → Bool)
    (db : Db) (err : Option MongoError) (args : Args) : Outcome (List Doc) :=
  let query := historyQuery b args
  let collection := db.patientHistory
  match collection.find (matchesQuery holds query) err with
  | .error e => .rejected (.storage e)
  | .ok patients => .resolved patients

/-- The query object that `historyById` builds, lines 443-592. The argument `id` is not among
the arguments it reads. -/
def historyByIdQuery {F : Type} (b : Builders F) (args : Args) : Query F :=
  let ors : List F := []
  let ors : List F := ifSet args.address (fun (v : String) (ors : List F) => ors ++ b.addressQueryBuilder v) ors
  let ors : List F := ifSet args.name (fun (v : String) (ors : List F) => ors ++ b.nameQueryBuilder v) ors
  let query : Query F := []
  let query : Query F := if ors.length ≠ 0 then query.set "$and" (.all ors) else query
  let query : Query F := ifSet args._id (fun (v : String) (q : Query F) => q.set "id" (.str v)) query
  let query : Query F := ifSet args.active (fun (v : String) (q : Query F) => q.set "active" (.bool (v == "true"))) query
  let query : Query F := ifSet args.addressCity
    (fun (v : String) (q : Query F) => q.set "address.city" (.frag (b.stringQueryBuilder v))) query
  let query : Query F := ifSet args.addressCountry
    (fun (v : String) (q : Query F) => q.set "address.country" (.frag (b.stringQueryBuilder v))) query
  let query : Query F := ifSet args.addressPostalCode
    (fun (v : String) (q : Query F) => q.set "address.postalCode" (.frag (b.stringQueryBuilder v))) query
  let query : Query F := ifSet args.addressState
    (fun (v : String) (q : Query F) => q.set "address.state" (.frag (b.stringQueryBuilder v))) query
  let query : Query F := ifSet args.addressUse (fun (v : String) (q : Query F) => q.set "address.use" (.str v)) query
  let query : Query F := ifSet args.animalBreed
    (fun (v : String) (q : Query F) => q.setAll (b.tokenQueryBuilder v "code" "animal.breed.coding" "")) query
  let query : Query F := ifSet args.animalSpecies
    (fun (v : String) (q : Query F) => q.setAll (b.tokenQueryBuilder v "code" "animal.species.coding" "")) query
  let query : Query F := ifSet args.birthDate
    (fun (v : String) (q : Query F) => q.set "birthDate" (.frag (b.dateQueryBuilder v "date" ""))) query
  let query : Query F := ifSet args.deathDate
    (fun (v : String) (q : Query F) => q.set "deceasedDateTime" (.frag (b.dateQueryBuilder v "dateTime" ""))) query
  let query : Query F := ifSet args.deceased
    (fun (v : String) (q : Query F) => q.set "deceasedBoolean" (.bool (v == "true"))) query
  let query : Query F := ifSet args.email
    (fun (v : String) (q : Query F) => q.setAll (b.tokenQueryBuilder v "value" "telecom" "email")) query
  let query : Query F := ifSet args.family
    (fun (v : String) (q : Query F) => q.set "name.family" (.frag (b.stringQueryBuilder v))) query
  let query : Query F := ifSet args.gender (fun (v : String) (q : Query F) => q.set "gender" (.str v)) query
  let query : Query F := ifSet args.generalPractitioner
    (fun (v : String) (q : Query F) => q.setAll (b.referenceQueryBuilder v "generalPractitioner.reference")) query
  let query : Query F := ifSet args.given
    (fun (v : String) (q : Query F) => q.set "name.given" (.frag (b.stringQueryBuilder v))) query
  let query : Query F := ifSet args.identifier
    (fun (v : String) (q : Query F) => q.setAll (b.tokenQueryBuilder v "value" "identifier" "")) query
  let query : Query F := ifSet args.language
    (fun (v : String) (q : Query F) => q.setAll (b.tokenQueryBuilder v "code" "communication.language.coding" "")) query
  let query : Query F := ifSet args.link
    (fun (v : String) (q : Query F) => q.setAll (b.referenceQueryBuilder v "link.other.reference")) query
  let query : Query F := ifSet args.organization
    (fun (v : String) (q : Query F) => q.setAll (b.referenceQueryBuilder v "managingOrganization.reference")) query
  let query : Query F := ifSet args.phone
    (fun (v : String) (q : Query F) => q.setAll (b.tokenQueryBuilder v "value" "telecom" "phone")) query
  let query : Query F := ifSet args.telecom
    (fun (v : String) (q : Query F) => q.setAll (b.tokenQueryBuilder v "value" "telecom" "")) query
  query

/-- `historyById`, lines 438-614: `find(query)` on the history collection with the query
built from the arguments; resolves with the matching documents. -/
def historyById {F : Type} (b : Builders F) (holds : String → QueryValue F → Doc → Bool)
    (db : Db) (err : Option MongoError) (args : Args) : Outcome (List Doc) :=
  let query := historyByIdQuery b args
  let collection := db.patientHistory
  match collection.find (matchesQuery holds query) err with
  | .error e => .rejected (.storage e)
  | .ok patients => .resolved patients

end Patient

/-! ## Practitioner service

The Practitioner service works on the single collection `COLLECTION.PRACTITIONER`, which is
the state its functions take and return. -/

namespace Practitioner

/-- The query object that the Practitioner `search` builds, lines 37-123. A single fragment
in `ors` is pushed a second time before it is stored under `$and`. -/
def searchQuery {F : Type} (b : Builders F) (args : Args) : Query F :=
  let ors : List F := []
  let query : Query F := []
  let query : Query F := ifSet args._id
    (fun (v : String) (q : Query F) => q.set "id" (.str v)) query
  let query : Query F := ifSet args.active
    (fun (v : String) (q : Query F) => q.set "active" (.str v)) query
  let ors : List F := ifSet args.name
    (fun (v : String) (ors : List F) => ors ++ b.nameQueryBuilder v) ors
  let ors : List F := ifSet args.address
    (fun (v : String) (ors : List F) => ors ++ b.addressQueryBuilder v) ors
  let query : Query F :=
    if ors.length ≠ 0 then
      let ors : List F :=
        match ors with
        | [first] => [first, first]
        | _ => ors
      query.set "$and" (.all ors)
    else query
  let query : Query F := ifSet args.addressCity
    (fun (v : String) (q : Query F) => q.set "address.city" (.frag (b.stringQueryBuilder v))) query
  let query : Query F := ifSet args.addressCountry
    (fun (v : String) (q : Query F) => q.set "address.country" (.frag (b.stringQueryBuilder v)))
    query
  let query : Query F := ifSet args.addressPostalCode
    (fun (v : String) (q : Query F) =>
      q.set "address.postalCode" (.frag (b.stringQueryBuilder v))) query
  let query : Query F := ifSet args.addressState
    (fun (v : String) (q : Query F) => q.set "address.state" (.frag (b.stringQueryBuilder v)))
    query
  let query : Query F := ifSet args.addressUse
    (fun (v : String) (q : Query F) => q.set "address.use" (.frag (b.stringQueryBuilder v))) query
  let query : Query F := ifSet args.communication
    (fun (v : String) (q : Query F) =>
      q.setAll (b.tokenQueryBuilder v "code" "communication.coding" "")) query
  let query : Query F := ifSet args.email
    (fun (v : String) (q : Query F) => q.setAll (b.tokenQueryBuilder v "value" "telecom" "email"))
    query
  let query : Query F := ifSet args.family
    (fun (v : String) (q : Query F) => q.set "name.family" (.frag (b.stringQueryBuilder v))) query
  let query : Query F := ifSet args.gender
    (fun (v : String) (q : Query F) => q.set "gender" (.str v)) query
  let query : Query F := ifSet args.given
    (fun (v : String) (q : Query F) => q.set "name.given" (.frag (b.stringQueryBuilder v))) query
  let query : Query F := ifSet args.identifier
    (fun (v : String) (q : Query F) => q.setAll (b.tokenQueryBuilder v "value" "identifier" ""))
    query
  let query : Query F := ifSet args.phone
    (fun (v : String) (q : Query F) => q.setAll (b.tokenQueryBuilder v "value" "telecom" "phone"))
    query
  let query : Query F := ifSet args.telecom
    (fun (v : String) (q : Query F) => q.setAll (b.tokenQueryBuilder v "value" "telecom" ""))
    query
  query

/-- Practitioner `search`, lines 35-138: `find(query)` on the collection, resolved with the
documents of the cursor. -/
def search {F : Type} (b : Builders F) (holds : String → QueryValue F → Doc → Bool)
    (collection : Collection) (err : Option MongoError) (args : Args) : Outcome (List Doc) :=
  let query := searchQuery b args
  match collection.find (matchesQuery holds query) err with
  | .error e => .rejected (.storage e)
  | .ok practitioners => .resolved practitioners

/-- Practitioner `create`, lines 172-191: inserts
`Object.assign(resource.toJSON(), { _id: id })` and resolves with the `id` field of the
inserted document. -/
def create (collection : Collection) (err : Option MongoError) (id : String)
    (resource : Resource) : Outcome Patient.CreateResult × Collection :=
  let doc := assignId resource id
  match collection.insert doc err with
  | .error e => (.rejected (.storage e), collection)
  | .ok (practitioner, collection') => (.resolved { id := practitioner.id }, collection')

/-- The value the Practitioner `update` resolves with: `{ id: res.value && res.value.id }`. -/
structure UpdateResult where
  id : Option String
  deriving DecidableEq

/-- Practitioner `update`, lines 200-218: `findOneAndUpdate({ id: id }, { $set: doc },
{ upsert: true })` with `doc` the resource JSON under `_id: id`; no version is kept. It
resolves with the `id` of the document as it was before the update. -/
def update (collection : Collection) (err : Option MongoError) (id : String)
    (resource : Resource) : Outcome UpdateResult × Collection :=
  let doc := assignId resource id
  match collection.findOneAndUpdate id doc err with
  | .error e => (.rejected (.storage e), collection)
  | .ok (res, collection') => (.resolved { id := res.value.bind fun d => d.id }, collection')

end Practitioner

/-! ## DeviceUseStatement service

`src/services/deviceusestatement/deviceusestatement.service.js` forwards to the module
`../base/base.service`, which is not in `src` and is a parameter here, as is the constant
`COLLECTION.DEVICEUSESTATEMENT`. -/

/-- An argument handed to a function of the base service: the caller's argument object,
the caller's context, the object `{ req }` made of the `req` of the caller's context, or a
string. -/
inductive Passed (α κ : Type) where
  | args (a : α)
  | context (c : κ)
  | req (c : κ)
  | text (s : String)
  deriving DecidableEq

/-- The functions of the base service, each applied to the list of the arguments of the
call. -/
structure BaseService (α κ ρ : Type) where
  search : List (Passed α κ) → ρ
  searchById : List (Passed α κ) → ρ
  create : List (Passed α κ) → ρ
  update : List (Passed α κ) → ρ
  remove : List (Passed α κ) → ρ
  searchByVersionId : List (Passed α κ) → ρ
  history : List (Passed α κ) → ρ
  historyById : List (Passed α κ) → ρ
  patch : List (Passed α κ) → ρ

/-- How a call of a function ends: it returns a value or throws an error. -/
inductive Completion (ρ : Type) where
  | returned (value : ρ)
  | thrown (error : String)
  deriving DecidableEq

namespace DeviceUseStatement

/-- Line 4. -/
def resource_name : String := "DeviceUseStatement"

/-- Lines 7-8. -/
def search {α κ ρ : Type} (base_service : BaseService α κ ρ) (collection_name : String)
    (args : α) : Completion ρ :=
  .returned (base_service.search [.args args, .text resource_name, .text collection_name])

/-- Lines 10-11. -/
def searchById {α κ ρ : Type} (base_service : BaseService α κ ρ) (collection_name : String)
    (args : α) : Completion ρ :=
  .returned (base_service.searchById [.args args, .text resource_name, .text collection_name])

/-- Lines 13-14: the second argument is destructured to its `req`. -/
def create {α κ ρ : Type} (base_service : BaseService α κ ρ) (collection_name : String)
    (args : α) (context : κ) : Completion ρ :=
  .returned (base_service.create
    [.args args, .req context, .text resource_name, .text collection_name])

/-- Lines 16-17: the second argument is destructured to its `req`. -/
def update {α κ ρ : Type} (base_service : BaseService α κ ρ) (collection_name : String)
    (args : α) (context : κ) : Completion ρ :=
  .returned (base_service.update
    [.args args, .req context, .text resource_name, .text collection_name])

/-- Lines 19-20. -/
def remove {α κ ρ : Type} (base_service : BaseService α κ ρ) (collection_name : String)
    (args : α) (context : κ) : Completion ρ :=
  .returned (base_service.remove
    [.args args, .context context, .text resource_name, .text collection_name])

/-- Lines 22-23: the function called is `base_service.search`. -/
def searchByVersionId {α κ ρ : Type} (base_service : BaseService α κ ρ)
    (collection_name : String) (args : α) (context : κ) : Completion ρ :=
  .returned (base_service.search
    [.args args, .context context, .text resource_name, .text collection_name])

/-- Lines 25-26: the second argument of the call is the identifier `cotnext`, which is bound
nowhere; evaluating it throws a ReferenceError before `base_service.history` is called. -/
def history {α κ ρ : Type} (_base_service : BaseService α κ ρ) (_collection_name : String)
    (_args : α) : Completion ρ :=
  .thrown "ReferenceError: cotnext is not defined"

/-- Lines 28-29. -/
def historyById {α κ ρ : Type} (base_service : BaseService α κ ρ) (collection_name : String)
    (args : α) (context : κ) : Completion ρ :=
  .returned (base_service.historyById
    [.args args, .context context, .text resource_name, .text collection_name])

/-- Lines 31-32. -/
def patch {α κ ρ : Type} (base_service : BaseService α κ ρ) (collection_name : String)
    (args : α) (context : κ) : Completion ρ :=
  .returned (base_service.patch
    [.args args, .context context, .text resource_name, .text collection_name])

end DeviceUseStatement

/-! ## Reachable stores -/

/-- The stores reachable from the empty store by calls of the Patient `create`, `update` and
`remove`, each with any storage faults, whose id and payload satisfy `admits`. A call that
rejects still counts: the store it leaves is reachable. -/
inductive Reachable (admits : String → Resource → Prop) : Db → Prop where
  | empty : Reachable admits { patient := [], patientHistory := [] }
  | create (db : Db) (err : Option MongoError) (id : String) (resource : Resource) :
      Reachable admits db → admits id resource →
      Reachable admits (Patient.create db err id resource).2
  | update (db : Db) (now : String) (err err2 err3 : Option MongoError) (id : String)
      (resource : Resource) :
      Reachable admits db → admits id resource →
      Reachable admits (Patient.update db now err err2 err3 id resource).2
  | remove (db : Db) (err err2 : Option MongoError) (id : String) :
      Reachable admits db → Reachable admits (Patient.remove db err err2 id).2

/-! ## Sample documents -/

/-- A Patient record with id 0 at version 1. -/
def patient0 : Doc :=
  { _id := "0", id := some "0",
    meta := some { versionId := some "1", lastUpdated := some "2018-01-01T00:00:00+00:00", extra := [] },
    fields := [("gender", .str "male")] }

/-- A Patient payload with id 0 and no meta. -/
def payload0 : Resource :=
  { id := some "0", meta := none, fields := [("active", .bool true)] }

/-- A Patient payload that carries another id than the one it is sent under. -/
def payload9 : Resource :=
  { id := some "9", meta := none, fields := [("active", .bool true)] }

/-- The empty database. -/
def emptyDb : Db := { patient := [], patientHistory := [] }

/-- The `meta` of version 1 of the sample record. -/
def meta1 : Meta :=
  { versionId := some "1", lastUpdated := some "2018-01-01T00:00:00+00:00", extra := [] }

/-- The `meta` of version 2 of the sample record: only `versionId` differs. -/
def meta2 : Meta :=
  { versionId := some "2", lastUpdated := some "2018-01-01T00:00:00+00:00", extra := [] }

/-- A store whose only document is the current record `patient0`. -/
def store0 : Db := { patient := [patient0], patientHistory := [] }

/-- The current record for id 0 after `payload0` was written over `patient0`. -/
def patient0v2 : Doc :=
  { _id := "0", id := some "0", meta := some meta2,
    fields := [("gender", .str "male"), ("active", .bool true)] }

/-- The history entry of that write. -/
def history0v2 : Doc :=
  { _id := "02", id := some "0", meta := some meta2, fields := [("active", .bool true)] }

/-- The store after that write. -/
def store0v2 : Db := { patient := [patient0v2], patientHistory := [history0v2] }

/-- The response of that write. -/
def response0v2 : Patient.UpdateResult :=
  { id := some "0", created := false, resource_version := "2" }

/-- A store whose current record for id 0 is at version 2^53. -/
def storeMaxVersion : Db :=
  { patient := [{ patient0 with
      meta := some { versionId := some "9007199254740992", lastUpdated := none, extra := [] } }]
    patientHistory := [] }

/-- A history entry of another record, id 1. -/
def history1v1 : Doc :=
  { _id := "11", id := some "1", meta := some meta1, fields := [] }

/-- The `meta` that a first write at time `now` computes. -/
def metaFirst : Meta := { versionId := some "1", lastUpdated := some "now", extra := [] }

/-- The store after `payload0` was written under id 0 into the empty store at time `now`. -/
def storeFirst0 : Db :=
  { patient := [{ _id := "0", id := some "0", meta := some metaFirst, fields := payload0.fields }]
    patientHistory :=
      [{ _id := "01", id := some "0", meta := some metaFirst, fields := payload0.fields }] }

/-- The response of that write. -/
def responseFirst0 : Patient.UpdateResult :=
  { id := none, created := true, resource_version := "1" }

/-- A store whose history already holds, under another key, a record of id 0 at version 2. -/
def storeStale : Db :=
  { patient := [patient0]
    patientHistory :=
      [{ _id := "y2", id := some "0", meta := some meta2, fields := [("gender", .str "female")] }] }

/-- A payload for id 0 that switches `active` off. -/
def payloadOff : Resource :=
  { id := some "0", meta := none, fields := [("active", .bool false)] }

/-- A payload for id 0 that brings a `meta` of its own. -/
def payloadWithMeta : Resource :=
  { id := some "0"
    meta := some { versionId := some "7", lastUpdated := some "1999", extra := [] }
    fields := [("active", .bool true)] }

/-- A payload with id x. -/
def payloadX : Resource := { id := some "x", meta := none, fields := [] }

/-- A store whose current record with id 0 is stored under the key a. -/
def storeKeyA : Db :=
  { patient := [{ _id := "a", id := some "0", meta := none, fields := [] }]
    patientHistory := [] }

/-- Builders with string fragments: a token builder with the single path `field.type`, a
reference builder with the single path it is given. -/
def sampleBuilders : Builders String where
  stringQueryBuilder := fun v => "^" ++ v
  tokenQueryBuilder := fun v t field s => [(⟨field.data ++ ['.'] ++ t.data⟩, s ++ "|" ++ v)]
  referenceQueryBuilder := fun v path => [(path, v)]
  addressQueryBuilder := fun v => ["address~" ++ v]
  nameQueryBuilder := fun v => ["name~" ++ v]
  dateQueryBuilder := fun v t _ => t ++ "=" ++ v

/-- The store after `create` of `payload0` under id 0 on the empty store. -/
def storeCreated0 : Db := { patient := [assignId payload0 "0"], patientHistory := [] }

/-- The store after `payloadOff` was then written by `update` at time `now`. -/
def storeCreatedUpdated0 : Db :=
  { patient := [{ _id := "0", id := some "0", meta := some metaFirst, fields := payloadOff.fields }]
    patientHistory :=
      [{ _id := "01", id := some "0", meta := some metaFirst, fields := payloadOff.fields }] }

/-- The response of that `update`. -/
def responseCreatedUpdated0 : Patient.UpdateResult :=
  { id := some "0", created := false, resource_version := "1" }

/-- The invariant of the current collection under calls whose payload carries the id of the
call or none: storage keys are distinct, and a document with an id has it as storage key. -/
def KeyedById (c : Collection) : Prop :=
  (c.map fun d => d._id).Nodup ∧ ∀ d ∈ c, d.id = none ∨ d.id = some d._id

/-- A store with no current record whose history still holds version 1 of id 0. -/
def storeOrphanHistory : Db :=
  { patient := []
    patientHistory := [{ _id := "01", id := some "0", meta := some meta1, fields := [] }] }

/-- A store with the ids 1 and 12, at the versions 22 and 2. -/
def storeCollidingKeys : Db :=
  { patient :=
      [{ _id := "1", id := some "1",
         meta := some { versionId := some "22", lastUpdated := none, extra := [] }, fields := [] },
       { _id := "12", id := some "12",
         meta := some { versionId := some "2", lastUpdated := none, extra := [] }, fields := [] }]
    patientHistory := [] }

/-- A base service each function of which answers with its own name. -/
def namedBase : BaseService Unit Unit String where
  search := fun _ => "search"
  searchById := fun _ => "searchById"
  create := fun _ => "create"
  update := fun _ => "update"
  remove := fun _ => "remove"
  searchByVersionId := fun _ => "searchByVersionId"
  history := fun _ => "history"
  historyById := fun _ => "historyById"
  patch := fun _ => "patch"

/-- The Practitioner record for id 0 after `payload0` was written over `patient0`: the meta
is untouched. -/
def patient0v2Practitioner : Doc :=
  { _id := "0", id := some "0", meta := some meta1,
    fields := [("gender", .str "male"), ("active", .bool true)] }

/-! ## Decimal strings and `parseInt` -/

theorem digitChar_toNat (v : Nat) (h : v < 10) : (Nat.digitChar v).toNat = v + 48 := by
  interval_cases v <;> rfl

theorem toDigitsCore_append (fuel : Nat) : ∀ (n : Nat) (ds : List Char),
    Nat.toDigitsCore 10 fuel n ds = Nat.toDigitsCore 10 fuel n [] ++ ds := by
  induction fuel with
  | zero => intro n ds; simp [Nat.toDigitsCore]
  | succ f ih =>
    intro n ds
    simp only [Nat.toDigitsCore]
    split
    · simp
    · rw [ih (n / 10) (_ :: ds), ih (n / 10) [_]]; simp

theorem toDigitsCore_isDecimal (fuel : Nat) : ∀ n, IsDecimal (Nat.toDigitsCore 10 fuel n []) := by
  induction fuel with
  | zero => intro n c hc; simp [Nat.toDigitsCore] at hc
  | succ f ih =>
    intro n c hc
    simp only [Nat.toDigitsCore] at hc
    split at hc
    · simp at hc; exact ⟨n % 10, Nat.mod_lt _ (by norm_num), hc⟩
    · rw [toDigitsCore_append] at hc
      simp at hc
      rcases hc with hc | hc
      · exact ih _ c hc
      · exact ⟨n % 10, Nat.mod_lt _ (by norm_num), hc⟩

theorem toDigitsCore_ne_nil (fuel n : Nat) : Nat.toDigitsCore 10 (fuel + 1) n [] ≠ [] := by
  simp only [Nat.toDigitsCore]
  split
  · simp
  · rw [toDigitsCore_append]; simp

theorem digitValue_digitChar (v : Nat) (h : v < 10) : digitValue 10 (Nat.digitChar v) = some v := by
  interval_cases v <;> rfl

theorem leadingDigits_isDecimal (l : List Char) (h : IsDecimal l) :
    ∃ ds : List Nat, leadingDigits 10 l = ds ∧ ds.length = l.length ∧
      ∀ acc, ds.foldl (fun acc d => acc * 10 + d) acc
        = l.foldl (fun acc c => acc * 10 + (c.toNat - 48)) acc := by
  induction l with
  | nil => exact ⟨[], rfl, rfl, fun _ => rfl⟩
  | cons c cs ih =>
    obtain ⟨v, hv, rfl⟩ := h c (by simp)
    obtain ⟨ds, h1, h2, h3⟩ := ih (fun c hc => h c (by simp [hc]))
    refine ⟨v :: ds, ?_, by simp [h2], ?_⟩
    · simp [leadingDigits, digitValue_digitChar v hv, h1]
    · intro acc
      simp [h3, digitChar_toNat v hv]

theorem toDigitsCore_value (fuel : Nat) : ∀ n, n < fuel →
    (Nat.toDigitsCore 10 fuel n []).foldl (fun acc c => acc * 10 + (c.toNat - 48)) 0 = n := by
  induction fuel with
  | zero => intro n h; omega
  | succ f ih =>
    intro n h
    simp only [Nat.toDigitsCore]
    split
    · rename_i h0
      simp [digitChar_toNat (n % 10) (Nat.mod_lt _ (by norm_num))]
      omega
    · rename_i h0
      rw [toDigitsCore_append]
      simp [List.foldl_append, digitChar_toNat (n % 10) (Nat.mod_lt _ (by norm_num))]
      rw [ih (n / 10) (by omega)]
      omega

theorem parseInt_toString (n : Nat) : parseInt (toString n) = some (n : Int) := by
  have hdata : (toString n).data = Nat.toDigitsCore 10 (n + 1) n [] := rfl
  have hdec := toDigitsCore_isDecimal (n + 1) n
  have hne := toDigitsCore_ne_nil n n
  have hval := toDigitsCore_value (n + 1) n (by omega)
  unfold parseInt
  rw [hdata]
  generalize Nat.toDigitsCore 10 (n + 1) n [] = l at hdec hne hval
  match l, hne with
  | c :: cs, _ =>
    obtain ⟨v, hv, rfl⟩ := hdec c (by simp)
    have hws : isJsWhiteSpace (Nat.digitChar v) = false := by interval_cases v <;> rfl
    have hsign : splitSign (Nat.digitChar v :: cs) = (false, Nat.digitChar v :: cs) := by
      interval_cases v <;> rfl
    have hradix : splitRadix (Nat.digitChar v :: cs) = (10, Nat.digitChar v :: cs) := by
      match cs, hdec with
      | [], _ => interval_cases v <;> rfl
      | c2 :: cs2, hdec =>
        obtain ⟨w, hw, rfl⟩ := hdec c2 (by simp)
        interval_cases v <;> interval_cases w <;> rfl
    obtain ⟨ds, h1, h2, h3⟩ := leadingDigits_isDecimal _ hdec
    simp only [List.dropWhile, hws, hsign, hradix, h1]
    match ds, h2 with
    | d :: ds, _ =>
      simp only [h3 0, hval]
      simp

/-! ## Reads and removal -/

theorem find?_idIs_eq_none {c : Collection} {I : String} :
    c.find? (idIs I) = none ↔ ∀ d ∈ c, d.id ≠ some I := by
  simp [List.find?_eq_none, idIs]

/-- C1 (defect of the code): `searchById` reads the history collection. With a current record
for id 0 and an empty history it finds nothing, and with no current record it returns a
history entry. -/
theorem searchById_reads_history_collection :
    [patient0].find? (idIs "0") = some patient0 ∧
    Patient.searchById { patient := [patient0], patientHistory := [] } none "0" = .resolved none ∧
    Patient.searchById { patient := [], patientHistory := [patient0] } none "0"
      = .resolved (some patient0) := by
  decide

/-- C2 as stated fails: after a successful `create` of id 0 on the empty store, `searchById`
returns no record, and the record in the current collection has no `meta.versionId`. -/
theorem create_then_searchById_counterexample :
    (Patient.create emptyDb none "0" payload0).1 = .resolved { id := some "0" } ∧
    Patient.searchById (Patient.create emptyDb none "0" payload0).2 none "0" = .resolved none ∧
    (Patient.create emptyDb none "0" payload0).2.patient.find? (idIs "0")
      = some { _id := "0", id := some "0", meta := none, fields := [("active", .bool true)] } := by
  decide

/-- C2 (amended): a successful `create(I, P)` appends to the current collection one document,
stored under key `I`, with exactly the fields of `P`, its `id` and `meta` included; the
history collection is unchanged and the promise resolves with the `id` of `P`. When the store
had no current record for `I` and `P` carries id `I`, that document is the current record for
`I`, so its `meta.versionId` is the one `P` carries. -/
theorem create_stores_payload (db : Db) (err : Option MongoError) (I : String) (P : Resource)
    (r : Patient.CreateResult) (db' : Db)
    (h : Patient.create db err I P = (.resolved r, db')) :
    r.id = P.id ∧
    db'.patient = db.patient ++ [assignId P I] ∧
    db'.patientHistory = db.patientHistory ∧
    (db.patient.find? (idIs I) = none → P.id = some I →
      db'.patient.find? (idIs I) = some (assignId P I) ∧
      (assignId P I).id = some I ∧ (assignId P I).meta = P.meta) := by
  unfold Patient.create Collection.insert at h
  cases err with
  | some e => simp at h
  | none =>
    by_cases hany : (db.patient.any fun d => d._id == (assignId P I)._id) = true
    · simp [hany] at h
    · simp only [hany, if_false, Bool.false_eq_true, Prod.mk.injEq, Outcome.resolved.injEq] at h
      obtain ⟨h1, h2⟩ := h
      subst h2
      subst h1
      refine ⟨rfl, rfl, rfl, ?_⟩
      intro hnone hid
      refine ⟨?_, hid, rfl⟩
      simp only [List.find?_append, hnone, Option.none_or]
      simp [List.find?, idIs, assignId, hid]

theorem create_stores_payload_witness :
    (Patient.create emptyDb none "0" payload0).2.patient = [] ++ [assignId payload0 "0"] :=
  (create_stores_payload emptyDb none "0" payload0 { id := some "0" }
    (Patient.create emptyDb none "0" payload0).2 (by decide)).2.1

/-- C8: after a successful `remove(I)` no document of the current collection and none of the
history collection has id `I`, and `searchById(I)` resolves with no record (and under no
storage fault with a record). -/
theorem remove_purges_id (db : Db) (err err2 : Option MongoError) (I : String)
    (r : Patient.RemoveResult) (db' : Db)
    (h : Patient.remove db err err2 I = (.resolved r, db')) :
    (∀ d ∈ db'.patient, d.id ≠ some I) ∧
    (∀ d ∈ db'.patientHistory, d.id ≠ some I) ∧
    Patient.searchById db' none I = .resolved none ∧
    (∀ fault d, Patient.searchById db' fault I ≠ .resolved (some d)) := by
  unfold Patient.remove Collection.remove at h
  cases err with
  | some e => simp at h
  | none =>
    cases err2 with
    | some e => simp at h
    | none =>
      simp only [Prod.mk.injEq, Outcome.resolved.injEq] at h
      obtain ⟨_, h2⟩ := h
      subst h2
      have hcur : ∀ d ∈ db.patient.filter (fun d => !idIs I d), d.id ≠ some I := by
        intro d hd; simpa [idIs] using (List.mem_filter.mp hd).2
      have hhist : ∀ d ∈ db.patientHistory.filter (fun d => !idIs I d), d.id ≠ some I := by
        intro d hd; simpa [idIs] using (List.mem_filter.mp hd).2
      have hfind : (db.patientHistory.filter (fun d => !idIs I d)).find? (idIs I) = none :=
        find?_idIs_eq_none.mpr hhist
      refine ⟨hcur, hhist, ?_, ?_⟩
      · simp [Patient.searchById, Collection.findOne, hfind]
      · intro fault d
        cases fault with
        | some e => simp [Patient.searchById, Collection.findOne]
        | none => simp [Patient.searchById, Collection.findOne, hfind]

theorem remove_purges_id_witness :
    Patient.searchById (Patient.remove { patient := [patient0], patientHistory := [patient0] }
      none none "0").2 none "0" = .resolved none :=
  (remove_purges_id { patient := [patient0], patientHistory := [patient0] } none none "0"
    { deleted := 1 } _ (by decide)).2.2.1

/-- C9: when no current record has id `I`, `remove(I)` under no storage fault resolves with
`{ deleted: 0 }` and the current collection is unchanged. -/
theorem remove_absent_resolves_zero (db : Db) (I : String)
    (h : db.patient.find? (idIs I) = none) :
    (Patient.remove db none none I).1 = .resolved { deleted := 0 } ∧
    (Patient.remove db none none I).2.patient = db.patient := by
  have hall : ∀ d ∈ db.patient, idIs I d = false := by
    intro d hd
    have := find?_idIs_eq_none.mp h d hd
    simpa [idIs] using this
  have h1 : db.patient.filter (idIs I) = [] := by
    simp only [List.filter_eq_nil_iff]
    intro d hd; simp [hall d hd]
  have h2 : db.patient.filter (fun d => !idIs I d) = db.patient := by
    simp only [List.filter_eq_self]
    intro d hd; simp [hall d hd]
  simp [Patient.remove, Collection.remove, h1, h2]

theorem remove_absent_resolves_zero_witness :
    (Patient.remove { patient := [patient0], patientHistory := [] } none none "7").1
      = .resolved { deleted := 0 } :=
  (remove_absent_resolves_zero { patient := [patient0], patientHistory := [] } "7"
    (by decide)).1

/-- C10: `remove(I)` rejects exactly when the delete on the current collection fails or the
delete on the history collection fails, and the rejection is then `{ code: 409, message }`
with the message of the storage error that failed (the first delete, or else the second). -/
theorem remove_rejects_iff_delete_fails (db : Db) (err err2 : Option MongoError) (I : String) :
    ((∃ reason, (Patient.remove db err err2 I).1 = .rejected reason)
      ↔ (err ≠ none ∨ err2 ≠ none)) ∧
    (∀ e, err = some e →
      (Patient.remove db err err2 I).1 = .rejected (.conflict 409 e.message)) ∧
    (∀ e2, err = none → err2 = some e2 →
      (Patient.remove db err err2 I).1 = .rejected (.conflict 409 e2.message)) := by
  cases err with
  | some e => simp [Patient.remove, Collection.remove]
  | none =>
    cases err2 with
    | some e => simp [Patient.remove, Collection.remove]
    | none => simp [Patient.remove, Collection.remove]

/-! ## The write path of `update` -/

theorem find?_replaceFirst (p : Doc → Bool) (f : Doc → Doc) (c : Collection) (old : Doc)
    (h : c.find? p = some old) (hp : p (f old) = true) :
    (replaceFirst p f c).find? p = some (f old) := by
  induction c with
  | nil => simp at h
  | cons d ds ih =>
    by_cases hd : p d = true
    · simp only [List.find?, hd] at h
      cases h
      simp [replaceFirst, hd, List.find?, hp]
    · have hd' : p d = false := by simpa using hd
      simp only [List.find?, hd'] at h
      simp [replaceFirst, hd', List.find?, ih h]

theorem lookup_setField_self (fs : List (String × Json)) (k : String) (v : Json) :
    (setField fs k v).lookup k = some v := by
  induction fs with
  | nil => simp [setField, List.lookup]
  | cons kv rest ih =>
    obtain ⟨k', v'⟩ := kv
    by_cases hk : k' = k
    · simp [setField, hk, List.lookup]
    · have : (k == k') = false := by simpa using fun e => hk e.symm
      simp [setField, hk, List.lookup, this, ih]

theorem lookup_setField_other (fs : List (String × Json)) (k k' : String) (v : Json)
    (hne : k' ≠ k) : (setField fs k v).lookup k' = fs.lookup k' := by
  induction fs with
  | nil =>
    have : (k' == k) = false := by simpa using hne
    simp [setField, List.lookup, this]
  | cons kv rest ih =>
    obtain ⟨k0, v0⟩ := kv
    by_cases hk : k0 = k
    · subst hk
      have : (k' == k0) = false := by simpa using hne
      simp [setField, List.lookup, this]
    · by_cases hk' : k' = k0
      · subst hk'
        simp [setField, hk, List.lookup]
      · have : (k' == k0) = false := by simpa using hk'
        simp [setField, hk, List.lookup, this, ih]

theorem lookup_foldl_setField_of_not_mem (new : List (String × Json)) :
    ∀ (acc : List (String × Json)) (k : String), k ∉ new.map Prod.fst →
      (new.foldl (fun acc kv => setField acc kv.1 kv.2) acc).lookup k = acc.lookup k := by
  induction new with
  | nil => intro acc k _; rfl
  | cons kv rest ih =>
    intro acc k hk
    simp only [List.map_cons, List.mem_cons, not_or] at hk
    simp only [List.foldl_cons]
    rw [ih _ k hk.2, lookup_setField_other _ _ _ _ hk.1]

theorem lookup_foldl_setField_of_mem (new : List (String × Json)) :
    ∀ (acc : List (String × Json)), (new.map Prod.fst).Nodup → ∀ kv ∈ new,
      (new.foldl (fun acc kv => setField acc kv.1 kv.2) acc).lookup kv.1 = some kv.2 := by
  induction new with
  | nil => intro acc _ kv hkv; simp at hkv
  | cons x rest ih =>
    intro acc hnd kv hkv
    simp only [List.map_cons, List.nodup_cons] at hnd
    simp only [List.foldl_cons]
    rcases List.mem_cons.mp hkv with rfl | hmem
    · rw [lookup_foldl_setField_of_not_mem rest _ _ hnd.1, lookup_setField_self]
    · exact ih _ hnd.2 kv hmem

/-- What a successful `update` did: the version and meta it computed, the answer of the upsert,
the history key that was free, the response and the store it leaves. -/
theorem update_resolved_inv {db : Db} {now : String} {err err2 err3 : Option MongoError}
    {I : String} {P : Resource} {r : Patient.UpdateResult} {db' : Db}
    (h : Patient.update db now err err2 err3 I P = (.resolved r, db')) :
    ∃ v m res c',
      Patient.newMeta now (db.patient.find? (idIs I)) = (v, m) ∧
      Collection.findOneAndUpdate db.patient I (assignId { P with meta := some m } I) none
        = .ok (res, c') ∧
      (db.patientHistory.any fun d => d._id == I ++ v) = false ∧
      r = { id := res.value.bind fun d => d.id, created := !res.updatedExisting,
            resource_version := v } ∧
      db' = { patient := c',
              patientHistory :=
                db.patientHistory ++ [assignId { P with meta := some m } (I ++ v)] } := by
  unfold Patient.update at h
  cases err with
  | some e => simp [Collection.findOne] at h
  | none =>
    simp only [Collection.findOne] at h
    cases hm : Patient.newMeta now (db.patient.find? (idIs I)) with
    | mk v m =>
      simp only [hm] at h
      cases err2 with
      | some e => simp [Collection.findOneAndUpdate] at h
      | none =>
        cases hu : Collection.findOneAndUpdate db.patient I
            (assignId { P with meta := some m } I) none with
        | error e => simp [hu] at h
        | ok rc =>
          obtain ⟨res, c'⟩ := rc
          simp only [hu] at h
          cases err3 with
          | some e => simp [Collection.insert] at h
          | none =>
            simp only [Collection.insert] at h
            by_cases hany : (db.patientHistory.any fun d =>
                d._id == (assignId { P with meta := some m } (I ++ v))._id) = true
            · simp [hany] at h
            · simp only [hany, if_false, Bool.false_eq_true, Prod.mk.injEq,
                Outcome.resolved.injEq] at h
              refine ⟨v, m, res, c', rfl, hu, ?_, h.1.symm, h.2.symm⟩
              simpa [assignId] using hany

/-- The two ways the upsert of `update` succeeds: on the first document with the id, whose
`_id` it keeps, or by appending a new document. -/
theorem findOneAndUpdate_ok_inv {c : Collection} {I : String} {doc : Doc}
    {res : FindAndModifyResult} {c' : Collection}
    (h : Collection.findOneAndUpdate c I doc none = .ok (res, c')) :
    (∃ old, c.find? (idIs I) = some old ∧ old._id = doc._id ∧
        res = { value := some old, updatedExisting := true } ∧
        c' = replaceFirst (idIs I) (fun d => applySet d doc) c) ∨
    (c.find? (idIs I) = none ∧ res = { value := none, updatedExisting := false } ∧
        c' = c ++ [applySet { _id := doc._id, id := some I, meta := none, fields := [] } doc]) := by
  unfold Collection.findOneAndUpdate at h
  cases hf : c.find? (idIs I) with
  | some old =>
    simp only [hf] at h
    by_cases hid : old._id = doc._id
    · simp only [hid, if_true, Except.ok.injEq, Prod.mk.injEq] at h
      exact Or.inl ⟨old, rfl, hid, h.1.symm, h.2.symm⟩
    · simp [hid] at h
  | none =>
    simp only [hf] at h
    by_cases hany : (c.any fun d => d._id == doc._id) = true
    · simp [hany] at h
    · simp only [hany, if_false, Bool.false_eq_true, Except.ok.injEq, Prod.mk.injEq] at h
      exact Or.inr ⟨rfl, h.1.symm, h.2.symm⟩

theorem roundToDouble_of_le (n : Nat) (hn : n ≤ 2 ^ 53) : roundToDouble n = some n := by
  unfold roundToDouble
  rw [if_pos hn]

theorem toNumber_natCast (n : Nat) (hn : n ≤ 2 ^ 53) : toNumber (n : Int) = .finite n := by
  have hneg : ¬ ((n : Int) < 0) := by omega
  simp [toNumber, roundToDouble_of_le n hn, hneg]

theorem nextVersionId_toString (n : Nat) (hn : n < 2 ^ 53) :
    nextVersionId (some (toString n)) = toString (n + 1) := by
  have e : ((n : Int) + 1) = ((n + 1 : Nat) : Int) := by push_cast; rfl
  have hneg : ¬ (((n + 1 : Nat) : Int) < 0) := by omega
  have hle : n + 1 ≤ 2 ^ 53 := hn
  simp only [nextVersionId, parseInt_toString, toNumber_natCast n (Nat.le_of_lt hn), addOne, e,
    toNumber_natCast (n + 1) hn, numberToString, if_neg hneg, Int.natAbs_ofNat, positiveToString,
    if_pos hle]

/-- With a current record that has a meta, `newMeta` keeps that meta and replaces its
`versionId` by the next version. -/
theorem newMeta_of_meta (now : String) (d : Doc) (m : Meta) (hmeta : d.meta = some m) :
    Patient.newMeta now (some d)
      = (nextVersionId m.versionId, { m with versionId := some (nextVersionId m.versionId) }) := by
  simp [Patient.newMeta, hmeta]

/-- Without a current record with a meta, `newMeta` starts at version 1 with the time of the
call. -/
theorem newMeta_of_none (now : String) (data : Option Doc)
    (h : (data.bind fun d => d.meta) = none) :
    Patient.newMeta now data
      = ("1", { versionId := some "1", lastUpdated := some now, extra := [] }) := by
  simp [Patient.newMeta, h]

/-- The version that `newMeta` returns is the `versionId` of the meta it returns. -/
theorem newMeta_versionId {now : String} {data : Option Doc} {v : String} {m : Meta}
    (h : Patient.newMeta now data = (v, m)) : m.versionId = some v := by
  unfold Patient.newMeta at h
  split at h
  · simp only [Prod.mk.injEq] at h
    obtain ⟨h1, h2⟩ := h
    subst h1
    subst h2
    rfl
  · simp only [Prod.mk.injEq] at h
    obtain ⟨h1, h2⟩ := h
    subst h1
    subst h2
    rfl

theorem idIs_of_find? {c : Collection} {I : String} {d : Doc}
    (h : c.find? (idIs I) = some d) : d.id = some I := by
  have := List.find?_some h
  simpa [idIs] using this

/-- C3 as stated fails. A payload that carries another id moves the record away from id 0:
the update succeeds with version 2 and no current record for 0 is left. And at version 2^53
the sum `parseInt(versionId) + 1` is not a JavaScript number: the reported version is again
2^53, not its successor. -/
theorem update_increments_version_counterexample :
    (Patient.update store0 "now" none none none "0" payload9).1
      = .resolved { id := some "0", created := false, resource_version := "2" } ∧
    (Patient.update store0 "now" none none none "0" payload9).2.patient.find? (idIs "0")
      = none ∧
    (Patient.update storeMaxVersion "now" none none none "0" payload0).1
      = .resolved { id := some "0", created := false,
                    resource_version := "9007199254740992" } ∧
    toString (2 ^ 53) = "9007199254740992" ∧
    toString (2 ^ 53 + 1) = "9007199254740993" := by
  decide

/-- C3 (amended): when the current record for `I` has a meta whose `versionId` is the decimal
string of `n`, with `n` below 2^53, and the payload carries id `I` or no id, a successful
`update(I, P)` reports the decimal string of `n + 1` as resource version and leaves a current
record for `I` whose `meta.versionId` is that string. -/
theorem update_increments_version (db : Db) (now : String) (err err2 err3 : Option MongoError)
    (I : String) (P : Resource) (d : Doc) (m : Meta) (n : Nat) (r : Patient.UpdateResult)
    (db' : Db)
    (hcur : db.patient.find? (idIs I) = some d) (hmeta : d.meta = some m)
    (hver : m.versionId = some (toString n)) (hn : n < 2 ^ 53)
    (hid : P.id = none ∨ P.id = some I)
    (h : Patient.update db now err err2 err3 I P = (.resolved r, db')) :
    r.resource_version = toString (n + 1) ∧
    ∃ d', db'.patient.find? (idIs I) = some d' ∧
      (d'.meta.bind fun m => m.versionId) = some (toString (n + 1)) := by
  obtain ⟨v, m', res, c', hm, hu, _, hr, hdb⟩ := update_resolved_inv h
  have hv : v = toString (n + 1) ∧ m'.versionId = some (toString (n + 1)) := by
    rw [hcur, newMeta_of_meta now d m hmeta, hver, nextVersionId_toString n hn] at hm
    simp only [Prod.mk.injEq] at hm
    obtain ⟨h1, h2⟩ := hm
    subst h1
    subst h2
    exact ⟨rfl, rfl⟩
  subst hr
  subst hdb
  refine ⟨hv.1, ?_⟩
  rcases findOneAndUpdate_ok_inv hu with ⟨old, hold, _, _, hc'⟩ | ⟨hnone, _, _⟩
  · subst hc'
    have holdid : old.id = some I := idIs_of_find? hold
    refine ⟨applySet old (assignId { P with meta := some m' } I), ?_, ?_⟩
    · apply find?_replaceFirst _ _ _ _ hold
      rcases hid with hid | hid <;> simp [idIs, applySet, assignId, hid, holdid]
    · simp [applySet, assignId, hv.2]
  · rw [hcur] at hnone
    cases hnone

theorem update_increments_version_witness :
    response0v2.resource_version = toString (1 + 1) ∧
    ∃ d', store0v2.patient.find? (idIs "0") = some d' ∧
      (d'.meta.bind fun m => m.versionId) = some (toString (1 + 1)) :=
  update_increments_version store0 "now" none none none "0" payload0 patient0 meta1 1
    response0v2 store0v2 (by decide) (by decide) (by decide) (by decide) (by decide) (by decide)
/-- C4: when no current record has id `I`, a successful `update(I, P)` appends one current
record and one history record, both with `meta.versionId` "1", and reports resource version
"1". -/
theorem update_absent_starts_at_one (db : Db) (now : String)
    (err err2 err3 : Option MongoError) (I : String) (P : Resource)
    (r : Patient.UpdateResult) (db' : Db)
    (habs : db.patient.find? (idIs I) = none)
    (h : Patient.update db now err err2 err3 I P = (.resolved r, db')) :
    r.resource_version = "1" ∧
    ∃ cur hist, db'.patient = db.patient ++ [cur] ∧
      (cur.meta.bind fun m => m.versionId) = some "1" ∧
      db'.patientHistory = db.patientHistory ++ [hist] ∧
      (hist.meta.bind fun m => m.versionId) = some "1" := by
  obtain ⟨v, m, res, c', hm, hu, _, hr, hdb⟩ := update_resolved_inv h
  simp only [Patient.newMeta, habs, Option.bind, Option.some.injEq, Prod.mk.injEq] at hm
  obtain ⟨hv, hm⟩ := hm
  subst hv
  subst hm
  subst hr
  subst hdb
  refine ⟨rfl, ?_⟩
  rcases findOneAndUpdate_ok_inv hu with ⟨old, hold, _, _, _⟩ | ⟨_, _, hc'⟩
  · rw [habs] at hold
    cases hold
  · subst hc'
    exact ⟨_, _, rfl, rfl, rfl, rfl⟩

theorem update_absent_starts_at_one_witness :
    responseFirst0.resource_version = "1" ∧
    ∃ cur hist, storeFirst0.patient = emptyDb.patient ++ [cur] ∧
      (cur.meta.bind fun m => m.versionId) = some "1" ∧
      storeFirst0.patientHistory = emptyDb.patientHistory ++ [hist] ∧
      (hist.meta.bind fun m => m.versionId) = some "1" :=
  update_absent_starts_at_one emptyDb "now" none none none "0" payload0 responseFirst0
    storeFirst0 (by decide) (by decide)

/-- C5 as stated fails: after `payload0` is written over `patient0`, the history record of
version 2 has no field `gender`, while the current record still has it. And when the history
already holds a record of id 0 at version 2 under another key, `searchByVersionId` returns
that older record, not the one the update appended. -/
theorem update_history_equals_current_counterexample :
    Patient.update store0 "now" none none none "0" payload0
      = (.resolved response0v2, store0v2) ∧
    Patient.searchByVersionId store0v2 none "0" "2" = .resolved (some history0v2) ∧
    store0v2.patient.find? (idIs "0") = some patient0v2 ∧
    history0v2.fields.lookup "gender" = none ∧
    patient0v2.fields.lookup "gender" = some (.str "male") ∧
    (Patient.update storeStale "now" none none none "0" payload0).1
      = .resolved response0v2 ∧
    Patient.searchByVersionId (Patient.update storeStale "now" none none none "0" payload0).2
        none "0" "2" = .resolved (storeStale.patientHistory.head?) ∧
    (Patient.update storeStale "now" none none none "0" payload0).2.patient.find? (idIs "0")
      = some patient0v2 := by
  decide

/-- C5 (amended): let the current record for `I` be at version `n` below 2^53, let the payload
carry id `I` and have distinct field names, and let the history hold no record of `I` at
version `n + 1`. After a successful `update(I, P)` the record that
`searchByVersionId(I, n + 1)` returns and the current record for `I` have the same `id` and
the same `meta`, and every field of the history record has the same value in the current
record. (The current record may keep further fields of its previous version.) -/
theorem update_history_within_current (db : Db) (now : String)
    (err err2 err3 : Option MongoError) (I : String) (P : Resource) (d : Doc) (m : Meta)
    (n : Nat) (r : Patient.UpdateResult) (db' : Db)
    (hcur : db.patient.find? (idIs I) = some d) (hmeta : d.meta = some m)
    (hver : m.versionId = some (toString n)) (hn : n < 2 ^ 53)
    (hid : P.id = some I) (hkeys : (P.fields.map Prod.fst).Nodup)
    (hfresh : db.patientHistory.find? (idVersionIs I (toString (n + 1))) = none)
    (h : Patient.update db now err err2 err3 I P = (.resolved r, db')) :
    ∃ hist cur,
      Patient.searchByVersionId db' none I (toString (n + 1)) = .resolved (some hist) ∧
      db'.patient.find? (idIs I) = some cur ∧
      hist.id = cur.id ∧ hist.meta = cur.meta ∧
      ∀ kv ∈ hist.fields, cur.fields.lookup kv.1 = some kv.2 := by
  obtain ⟨v, m', res, c', hm, hu, _, hr, hdb⟩ := update_resolved_inv h
  have hv : v = toString (n + 1) ∧ m'.versionId = some (toString (n + 1)) := by
    rw [hcur, newMeta_of_meta now d m hmeta, hver, nextVersionId_toString n hn] at hm
    simp only [Prod.mk.injEq] at hm
    obtain ⟨h1, h2⟩ := hm
    subst h1
    subst h2
    exact ⟨rfl, rfl⟩
  subst hr
  subst hdb
  rcases findOneAndUpdate_ok_inv hu with ⟨old, hold, _, _, hc'⟩ | ⟨hnone, _, _⟩
  · subst hc'
    refine ⟨assignId { P with meta := some m' } (I ++ v),
      applySet old (assignId { P with meta := some m' } I), ?_, ?_, ?_, ?_, ?_⟩
    · simp only [Patient.searchByVersionId, Collection.findOne, List.find?_append, hfresh,
        Option.none_or]
      simp [List.find?, idVersionIs, assignId, hid, hv.2]
    · apply find?_replaceFirst _ _ _ _ hold
      simp [idIs, applySet, assignId, hid]
    · simp [applySet, assignId, hid]
    · simp [applySet, assignId]
    · intro kv hkv
      exact lookup_foldl_setField_of_mem P.fields old.fields hkeys kv hkv
  · rw [hcur] at hnone
    cases hnone

theorem update_history_within_current_witness :
    ∃ hist cur,
      Patient.searchByVersionId store0v2 none "0" (toString (1 + 1)) = .resolved (some hist) ∧
      store0v2.patient.find? (idIs "0") = some cur ∧
      hist.id = cur.id ∧ hist.meta = cur.meta ∧
      ∀ kv ∈ hist.fields, cur.fields.lookup kv.1 = some kv.2 :=
  update_history_within_current store0 "now" none none none "0" payload0 patient0 meta1 1
    response0v2 store0v2 (by decide) (by decide) (by decide) (by decide) (by decide)
    (by decide) (by decide) (by decide)

/-- C6 as stated fails: the history record that a successful `update` of id 0 appends
carries the id of the payload, here 9, not the id 0 of the call. -/
theorem update_appends_history_counterexample :
    (Patient.update store0 "now" none none none "0" payload9).1
      = .resolved { id := some "0", created := false, resource_version := "2" } ∧
    (Patient.update store0 "now" none none none "0" payload9).2.patientHistory.map
        (fun d => (d._id, d.id)) = [("02", some "9")] := by
  decide

/-- C6 (amended): after a successful `update(I, P)` the history collection is the history
collection before followed by exactly one new record: it is stored under the key `I` followed
by the new versionId, carries that versionId, the id of the payload (which is `I` when the
payload carries id `I`) and the fields of the payload. The records that were there before
are all still there, unchanged and in place. -/
theorem update_appends_one_history_record (db : Db) (now : String)
    (err err2 err3 : Option MongoError) (I : String) (P : Resource)
    (r : Patient.UpdateResult) (db' : Db)
    (h : Patient.update db now err err2 err3 I P = (.resolved r, db')) :
    ∃ hist, db'.patientHistory = db.patientHistory ++ [hist] ∧
      hist._id = I ++ r.resource_version ∧
      (hist.meta.bind fun m => m.versionId) = some r.resource_version ∧
      hist.id = P.id ∧ hist.fields = P.fields ∧
      (P.id = some I → hist.id = some I) := by
  obtain ⟨v, m, res, c', hm, hu, _, hr, hdb⟩ := update_resolved_inv h
  subst hr
  subst hdb
  refine ⟨_, rfl, rfl, ?_, rfl, rfl, fun hid => hid⟩
  simp only [assignId, Option.bind]
  exact newMeta_versionId hm

theorem update_appends_one_history_record_witness :
    ∃ hist, store0v2.patientHistory = store0.patientHistory ++ [hist] ∧
      hist._id = "0" ++ response0v2.resource_version ∧
      (hist.meta.bind fun m => m.versionId) = some response0v2.resource_version ∧
      hist.id = payload0.id ∧ hist.fields = payload0.fields ∧
      (payload0.id = some "0" → hist.id = some "0") :=
  update_appends_one_history_record store0 "now" none none none "0" payload0 response0v2
    store0v2 (by decide)

/-- C7 (defect of the code): `historyById` does not read the argument `id`. Called with an id
and nothing else it builds the empty query and resolves with the whole history collection,
whatever the ids of its records; here the history of id 1 is returned for id 0. -/
theorem historyById_ignores_id {F : Type} (b : Builders F)
    (holds : String → QueryValue F → Doc → Bool) (db : Db) (I : String) :
    Patient.historyByIdQuery b { id := some I } = [] ∧
    Patient.historyById b holds db none { id := some I } = .resolved db.patientHistory ∧
    Patient.historyById b holds { patient := [], patientHistory := [history0v2, history1v1] }
        none { id := some "0" } = .resolved [history0v2, history1v1] ∧
    history1v1.id = some "1" := by
  have hq : Patient.historyByIdQuery b { id := some I } = [] := rfl
  have hq0 : Patient.historyByIdQuery b { id := some "0" } = [] := rfl
  refine ⟨hq, ?_, ?_, rfl⟩
  · simp [Patient.historyById, hq, Collection.find, matchesQuery]
  · simp [Patient.historyById, hq0, Collection.find, matchesQuery]

/-! ## `create` over an existing record, `create` then `update` -/

/-- What a successful `create` did: the document it appended and the id it resolved with. -/
theorem create_resolved_inv {db : Db} {err : Option MongoError} {I : String} {P : Resource}
    {r : Patient.CreateResult} {db' : Db}
    (h : Patient.create db err I P = (.resolved r, db')) :
    r.id = P.id ∧ db'.patient = db.patient ++ [assignId P I] ∧
      db'.patientHistory = db.patientHistory := by
  unfold Patient.create Collection.insert at h
  cases err with
  | some e => simp at h
  | none =>
    by_cases hany : (db.patient.any fun d => d._id == (assignId P I)._id) = true
    · simp [hany] at h
    · simp only [hany, if_false, Bool.false_eq_true, Prod.mk.injEq, Outcome.resolved.injEq] at h
      obtain ⟨h1, h2⟩ := h
      subst h2
      subst h1
      exact ⟨rfl, rfl, rfl⟩

/-- C11 as stated fails. With a current record of id 0 stored under another key, `create` of
id 0 succeeds and a second record of id 0 is added. And where `create` does fail, over a
record stored under key 0, the rejection is the duplicate-key error of the storage, not an
object with code 409. -/
theorem create_conflict_counterexample :
    (Patient.create storeKeyA none "0" payload0).1 = .resolved { id := some "0" } ∧
    ((Patient.create storeKeyA none "0" payload0).2.patient.filter (idIs "0")).length = 2 ∧
    (Patient.create store0 none "0" payload0).1 = .rejected (.storage duplicateKey) := by
  decide

/-- C11 (amended): when the current collection already holds a document stored under the key
`I`, `create(I, P)` rejects with the error of the storage, unchanged (the duplicate-key error
when the storage is reachable), and leaves the store as it was; the Practitioner `create`
does the same on its collection. -/
theorem create_rejects_on_taken_key (db : Db) (c : Collection) (err : Option MongoError)
    (I : String) (P : Resource)
    (hdb : ∃ d ∈ db.patient, d._id = I) (hc : ∃ d ∈ c, d._id = I) :
    Patient.create db err I P = (.rejected (.storage (err.getD duplicateKey)), db) ∧
    Practitioner.create c err I P = (.rejected (.storage (err.getD duplicateKey)), c) := by
  have h1 : (db.patient.any fun d => d._id == (assignId P I)._id) = true := by
    obtain ⟨d, hd, hid⟩ := hdb
    simp only [List.any_eq_true]
    exact ⟨d, hd, by simp [assignId, hid]⟩
  have h2 : (c.any fun d => d._id == (assignId P I)._id) = true := by
    obtain ⟨d, hd, hid⟩ := hc
    simp only [List.any_eq_true]
    exact ⟨d, hd, by simp [assignId, hid]⟩
  cases err with
  | some e => simp [Patient.create, Practitioner.create, Collection.insert]
  | none => simp [Patient.create, Practitioner.create, Collection.insert, h1, h2]

theorem create_rejects_on_taken_key_witness :
    Patient.create store0 none "0" payload0
      = (.rejected (.storage ((none : Option MongoError).getD duplicateKey)), store0) ∧
    Practitioner.create [patient0] none "0" payload0
      = (.rejected (.storage ((none : Option MongoError).getD duplicateKey)), [patient0]) :=
  create_rejects_on_taken_key store0 [patient0] none "0" payload0
    ⟨patient0, by decide, by decide⟩ ⟨patient0, by decide, by decide⟩

/-- C12: the query that `history` builds is the query that `search` builds from the same
arguments and builders, and `history` is `search` run on the history collection in place of
the current one. -/
theorem history_query_eq_search_query {F : Type} (b : Builders F)
    (holds : String → QueryValue F → Doc → Bool) (db : Db) (err : Option MongoError)
    (args : Args) :
    Patient.historyQuery b args = Patient.searchQuery b args ∧
    Patient.history b holds db err args
      = Patient.search b holds { patient := db.patientHistory, patientHistory := db.patient }
          err args := by
  exact ⟨rfl, rfl⟩

/-- C14 as stated fails: after `create` of a payload without meta, the first `update` finds a
record without meta and reports resource version 1, not 2. -/
theorem create_then_update_counterexample :
    Patient.create emptyDb none "0" payload0
      = (.resolved { id := some "0" },
          { patient := [assignId payload0 "0"], patientHistory := [] }) ∧
    (Patient.update { patient := [assignId payload0 "0"], patientHistory := [] } "now"
        none none none "0" payloadOff).1
      = .resolved { id := some "0", created := false, resource_version := "1" } := by
  decide

/-- C14 (amended): starting from a store with no current record for `I`, after a successful
`create(I, P)` with `P` carrying id `I`, a successful `update(I, P')` responds with id `I`
and created false. Its resource version is "1" when `P` carried no meta, and the decimal
successor of the `versionId` that `P` carried otherwise, so "2" when `P` carried version 1. -/
theorem create_then_update_response (db : Db) (err : Option MongoError) (now : String)
    (e1 e2 e3 : Option MongoError) (I : String) (P P' : Resource)
    (rc : Patient.CreateResult) (db1 : Db) (r : Patient.UpdateResult) (db2 : Db)
    (hnone : db.patient.find? (idIs I) = none) (hid : P.id = some I)
    (hc : Patient.create db err I P = (.resolved rc, db1))
    (hu : Patient.update db1 now e1 e2 e3 I P' = (.resolved r, db2)) :
    r.id = some I ∧ r.created = false ∧
    (P.meta = none → r.resource_version = "1") ∧
    (∀ m n, P.meta = some m → m.versionId = some (toString n) → n < 2 ^ 53 →
      r.resource_version = toString (n + 1)) := by
  obtain ⟨_, hpat, _⟩ := create_resolved_inv hc
  have hcur : db1.patient.find? (idIs I) = some (assignId P I) := by
    rw [hpat]
    simp only [List.find?_append, hnone, Option.none_or]
    simp [List.find?, idIs, assignId, hid]
  obtain ⟨v, m', res, c', hm, hup, _, hr, _⟩ := update_resolved_inv hu
  subst hr
  rcases findOneAndUpdate_ok_inv hup with ⟨old, hold, _, hres, _⟩ | ⟨hno, _, _⟩
  · rw [hcur] at hold
    cases hold
    subst hres
    refine ⟨by simp [assignId, hid], rfl, ?_, ?_⟩
    · intro hmeta
      simp only [Patient.newMeta, hcur, Option.bind, assignId, hmeta, Option.some.injEq,
        Prod.mk.injEq] at hm
      exact hm.1.symm
    · intro m n hmeta hver hn
      simp only [Patient.newMeta, hcur, Option.bind, assignId, hmeta, hver,
        nextVersionId_toString n hn, Option.map, Option.some.injEq, Prod.mk.injEq] at hm
      exact hm.1.symm
  · rw [hcur] at hno
    cases hno

theorem create_then_update_response_witness :
    responseCreatedUpdated0.id = some "0" ∧ responseCreatedUpdated0.created = false ∧
    (payload0.meta = none → responseCreatedUpdated0.resource_version = "1") ∧
    (∀ m n, payload0.meta = some m → m.versionId = some (toString n) → n < 2 ^ 53 →
      responseCreatedUpdated0.resource_version = toString (n + 1)) :=
  create_then_update_response emptyDb none "now" none none none "0" payload0 payloadOff
    { id := some "0" } storeCreated0 responseCreatedUpdated0 storeCreatedUpdated0
    (by decide) (by decide) (by decide) (by decide)

/-! ## The response and the current record after `update` -/

/-- C15 as stated fails. After a second write of id 0, `searchById` returns the record of
the first write (`active` true), not of the latest (`active` false). And the `meta` that a
payload brings is not the `meta` of the record written. -/
theorem update_then_searchById_counterexample :
    (Patient.update storeFirst0 "later" none none none "0" payloadOff).1
      = .resolved { id := some "0", created := false, resource_version := "2" } ∧
    Patient.searchById (Patient.update storeFirst0 "later" none none none "0" payloadOff).2
        none "0" = .resolved storeFirst0.patientHistory.head? ∧
    (storeFirst0.patientHistory.head?.bind fun d => d.fields.lookup "active")
      = some (.bool true) ∧
    payloadOff.fields.lookup "active" = some (.bool false) ∧
    (((Patient.update store0 "now" none none none "0" payloadWithMeta).2.patient.find?
        (idIs "0")).bind fun d => d.meta) = some meta2 ∧
    payloadWithMeta.meta ≠ some meta2 := by
  decide

/-- C15 (amended): for every store, id `I` and payload `P` carrying id `I` (a JSON object, its
field names distinct), after a successful `update(I, P)` the current record for `I` has id `I`
and, for every resource field of `P`, the value of `P`, whether or not `I` was written before;
its `meta` is the one `update` computed, with the reported version, not the payload's. -/
theorem update_current_record_has_payload (db : Db) (now : String)
    (err err2 err3 : Option MongoError) (I : String) (P : Resource)
    (r : Patient.UpdateResult) (db' : Db)
    (hid : P.id = some I) (hkeys : (P.fields.map Prod.fst).Nodup)
    (h : Patient.update db now err err2 err3 I P = (.resolved r, db')) :
    ∃ cur, db'.patient.find? (idIs I) = some cur ∧ cur.id = some I ∧
      (∀ kv ∈ P.fields, cur.fields.lookup kv.1 = some kv.2) ∧
      ∃ m, Patient.newMeta now (db.patient.find? (idIs I)) = (r.resource_version, m) ∧
        cur.meta = some m := by
  obtain ⟨v, m, res, c', hm, hu, _, hr, hdb⟩ := update_resolved_inv h
  subst hr
  subst hdb
  rcases findOneAndUpdate_ok_inv hu with ⟨old, hold, _, _, hc'⟩ | ⟨hnone, _, hc'⟩
  · subst hc'
    refine ⟨applySet old (assignId { P with meta := some m } I), ?_, ?_, ?_, m, hm, ?_⟩
    · apply find?_replaceFirst _ _ _ _ hold
      simp [idIs, applySet, assignId, hid]
    · simp [applySet, assignId, hid]
    · intro kv hkv
      exact lookup_foldl_setField_of_mem P.fields old.fields hkeys kv hkv
    · simp [applySet, assignId]
  · subst hc'
    refine ⟨applySet { _id := I, id := some I, meta := none, fields := [] }
      (assignId { P with meta := some m } I), ?_, ?_, ?_, m, hm, ?_⟩
    · simp only [List.find?_append, hnone, Option.none_or]
      simp [List.find?, idIs, applySet, assignId, hid]
    · simp [applySet, assignId, hid]
    · intro kv hkv
      exact lookup_foldl_setField_of_mem P.fields [] hkeys kv hkv
    · simp [applySet, assignId]

theorem update_current_record_has_payload_witness :
    ∃ cur, store0v2.patient.find? (idIs "0") = some cur ∧ cur.id = some "0" ∧
      (∀ kv ∈ payload0.fields, cur.fields.lookup kv.1 = some kv.2) ∧
      ∃ m, Patient.newMeta "now" (store0.patient.find? (idIs "0"))
          = (response0v2.resource_version, m) ∧
        cur.meta = some m :=
  update_current_record_has_payload store0 "now" none none none "0" payload0 response0v2
    store0v2 (by decide) (by decide) (by decide)

/-- C16 as stated fails: when `update` creates the record, the id of its response is absent
(`res.value` is `null` after an insert), in the Patient service and in the Practitioner
service alike. -/
theorem update_response_id_counterexample :
    Patient.update emptyDb "now" none none none "0" payload0
      = (.resolved { id := none, created := true, resource_version := "1" }, storeFirst0) ∧
    (Practitioner.update [] none "0" payload0).1 = .resolved { id := none } := by
  decide

/-- C16 (amended): a successful `update(I, P)` resolves with id `I` when a current record for
`I` existed, and with no id when it creates the record: the id of the response is that of
the document as it was before the update. This holds for the Patient `update`, whose
response says created false in the first case and created true in the second, and for the
Practitioner `update`, whose response has the id alone. -/
theorem update_response_id (db : Db) (now : String) (err err2 err3 : Option MongoError)
    (c : Collection) (errP : Option MongoError) (I : String) (P : Resource) :
    (∀ r db', Patient.update db now err err2 err3 I P = (.resolved r, db') →
      (∀ old, db.patient.find? (idIs I) = some old → r.id = some I ∧ r.created = false) ∧
      (db.patient.find? (idIs I) = none → r.id = none ∧ r.created = true)) ∧
    (∀ r c', Practitioner.update c errP I P = (.resolved r, c') →
      (∀ old, c.find? (idIs I) = some old → r.id = some I) ∧
      (c.find? (idIs I) = none → r.id = none)) := by
  refine ⟨fun r db' h => ?_, fun r c' h => ?_⟩
  · obtain ⟨v, m, res, c', _, hu, _, hr, _⟩ := update_resolved_inv h
    subst hr
    rcases findOneAndUpdate_ok_inv hu with ⟨old, hold, _, hres, _⟩ | ⟨hnone, hres, _⟩
    · subst hres
      refine ⟨fun _ _ => ⟨by simpa using idIs_of_find? hold, rfl⟩, fun hn => ?_⟩
      rw [hold] at hn
      cases hn
    · subst hres
      refine ⟨fun old ho => ?_, fun _ => ⟨rfl, rfl⟩⟩
      rw [hnone] at ho
      cases ho
  · unfold Practitioner.update at h
    cases errP with
    | some e => simp [Collection.findOneAndUpdate] at h
    | none =>
      cases hu : Collection.findOneAndUpdate c I (assignId P I) none with
      | error e => simp [hu] at h
      | ok rc =>
        obtain ⟨res, c1⟩ := rc
        simp only [hu, Prod.mk.injEq, Outcome.resolved.injEq] at h
        obtain ⟨hr, _⟩ := h
        subst hr
        rcases findOneAndUpdate_ok_inv hu with ⟨old, hold, _, hres, _⟩ | ⟨hnone, hres, _⟩
        · subst hres
          refine ⟨fun _ _ => by simpa using idIs_of_find? hold, fun hn => ?_⟩
          rw [hold] at hn
          cases hn
        · subst hres
          refine ⟨fun old ho => ?_, fun _ => rfl⟩
          rw [hnone] at ho
          cases ho

theorem update_response_id_witness :
    (response0v2.id = some "0" ∧ response0v2.created = false) ∧
    (Practitioner.UpdateResult.mk (some "0")).id = some "0" ∧
    (Practitioner.UpdateResult.mk none).id = none :=
  ⟨((update_response_id store0 "now" none none none [patient0] none "0" payload0).1
      response0v2 store0v2 (by decide)).1 patient0 (by decide),
    ((update_response_id store0 "now" none none none [patient0] none "0" payload0).2
      { id := some "0" } [patient0v2Practitioner] (by decide)).1 patient0 (by decide),
    ((update_response_id store0 "now" none none none [] none "0" payload0).2
      { id := none } [assignId payload0 "0"] (by decide)).2 (by decide)⟩

/-- C17: a Patient `search` whose argument object carries no search argument builds the
empty query and, with the storage reachable, resolves with every document of the current
collection, in order. -/
theorem search_without_arguments {F : Type} (b : Builders F)
    (holds : String → QueryValue F → Doc → Bool) (db : Db)
    (base id version_id : Option String) :
    Patient.searchQuery b { base := base, id := id, version_id := version_id } = [] ∧
    Patient.search b holds db none { base := base, id := id, version_id := version_id }
      = .resolved db.patient := by
  have hq : Patient.searchQuery b { base := base, id := id, version_id := version_id } = [] :=
    rfl
  refine ⟨hq, ?_⟩
  simp [Patient.search, hq, Collection.find, matchesQuery]

/-! ## One current record per id -/

theorem replaceFirst_map_id (p : Doc → Bool) (f : Doc → Doc) (c : Collection)
    (hf : ∀ d ∈ c, p d = true → (f d)._id = d._id) :
    (replaceFirst p f c).map (fun d => d._id) = c.map fun d => d._id := by
  induction c with
  | nil => rfl
  | cons d ds ih =>
    by_cases hd : p d = true
    · simp [replaceFirst, hd, hf d (by simp) hd]
    · have hd' : p d = false := by simpa using hd
      have := ih (fun x hx => hf x (by simp [hx]))
      simp [replaceFirst, hd', this]

theorem mem_replaceFirst (p : Doc → Bool) (f : Doc → Doc) (c : Collection) (x : Doc)
    (hx : x ∈ replaceFirst p f c) : x ∈ c ∨ ∃ d ∈ c, p d = true ∧ x = f d := by
  induction c with
  | nil => simp [replaceFirst] at hx
  | cons d ds ih =>
    by_cases hd : p d = true
    · rw [replaceFirst, if_pos hd] at hx
      rcases List.mem_cons.mp hx with h | h
      · exact Or.inr ⟨d, List.mem_cons_self _ _, hd, h⟩
      · exact Or.inl (List.mem_cons_of_mem _ h)
    · rw [replaceFirst, if_neg hd] at hx
      rcases List.mem_cons.mp hx with h | h
      · exact Or.inl (h ▸ List.mem_cons_self _ _)
      · rcases ih h with h' | ⟨e, he, hpe, hxe⟩
        · exact Or.inl (List.mem_cons_of_mem _ h')
        · exact Or.inr ⟨e, List.mem_cons_of_mem _ he, hpe, hxe⟩

theorem keyedById_append (c : Collection) (d : Doc) (hc : KeyedById c)
    (hfree : (c.any fun x => x._id == d._id) = false) (hd : d.id = none ∨ d.id = some d._id) :
    KeyedById (c ++ [d]) := by
  refine ⟨?_, ?_⟩
  · rw [List.map_append, List.nodup_append]
    refine ⟨hc.1, by simp, ?_⟩
    intro a ha hb
    simp only [List.map_cons, List.map_nil, List.mem_singleton] at hb
    subst hb
    obtain ⟨x, hx, hxa⟩ := List.mem_map.mp ha
    have := List.any_eq_false.mp hfree x hx
    simp [hxa] at this
  · intro x hx
    rcases List.mem_append.mp hx with h | h
    · exact hc.2 x h
    · simp only [List.mem_singleton] at h
      subst h
      exact hd

theorem keyedById_findOneAndUpdate (c : Collection) (I : String) (P : Resource) (m : Meta)
    (res : FindAndModifyResult) (c' : Collection) (hc : KeyedById c)
    (hP : P.id = none ∨ P.id = some I)
    (h : Collection.findOneAndUpdate c I (assignId { P with meta := some m } I) none
      = .ok (res, c')) : KeyedById c' := by
  unfold Collection.findOneAndUpdate at h
  cases hf : c.find? (idIs I) with
  | some old =>
    simp only [hf] at h
    by_cases hid : old._id = (assignId { P with meta := some m } I)._id
    · simp only [hid, if_true, Except.ok.injEq, Prod.mk.injEq] at h
      obtain ⟨_, hc'⟩ := h
      subst hc'
      have hkey : ∀ d ∈ c, idIs I d = true →
          (applySet d (assignId { P with meta := some m } I))._id = d._id := by
        intro d hd hp
        have hdid : d.id = some I := by simpa [idIs] using hp
        rcases hc.2 d hd with h0 | h0
        · rw [h0] at hdid; cases hdid
        · rw [h0] at hdid
          simp only [Option.some.injEq] at hdid
          simp [applySet, assignId, hdid]
      refine ⟨by rw [replaceFirst_map_id _ _ _ hkey]; exact hc.1, ?_⟩
      intro x hx
      rcases mem_replaceFirst _ _ _ _ hx with h0 | ⟨d, hd, hp, hxd⟩
      · exact hc.2 x h0
      · subst hxd
        have hdid : d.id = some I := by simpa [idIs] using hp
        rcases hP with hP | hP
        · right
          simp only [applySet, assignId, hP, hdid]
        · right
          simp only [applySet, assignId, hP]
    · simp [hid] at h
  | none =>
    simp only [hf] at h
    by_cases hany : (c.any fun d => d._id == (assignId { P with meta := some m } I)._id) = true
    · simp [hany] at h
    · simp only [hany, if_false, Bool.false_eq_true, Except.ok.injEq, Prod.mk.injEq] at h
      obtain ⟨_, hc'⟩ := h
      subst hc'
      apply keyedById_append _ _ hc
      · simpa [applySet] using hany
      · right
        rcases hP with hP | hP <;> simp [applySet, assignId, hP]

theorem keyedById_filter (c : Collection) (p : Doc → Bool) (hc : KeyedById c) :
    KeyedById (c.filter p) :=
  ⟨hc.1.sublist (List.Sublist.map _ (List.filter_sublist c)),
    fun d hd => hc.2 d (List.mem_filter.mp hd).1⟩

/-- The current collection that a call of `update` leaves: the one it found, or the one its
upsert produced. -/
theorem update_patient_inv (db : Db) (now : String) (err err2 err3 : Option MongoError)
    (I : String) (P : Resource) :
    (Patient.update db now err err2 err3 I P).2.patient = db.patient ∨
    ∃ m res, Collection.findOneAndUpdate db.patient I (assignId { P with meta := some m } I) none
        = .ok (res, (Patient.update db now err err2 err3 I P).2.patient) := by
  unfold Patient.update
  cases err with
  | some e => exact Or.inl (by simp [Collection.findOne])
  | none =>
    simp only [Collection.findOne]
    cases hm : Patient.newMeta now (db.patient.find? (idIs I)) with
    | mk v m =>
      simp only []
      cases err2 with
      | some e => exact Or.inl (by simp [Collection.findOneAndUpdate])
      | none =>
        cases hu : Collection.findOneAndUpdate db.patient I
            (assignId { P with meta := some m } I) none with
        | error e => exact Or.inl (by simp)
        | ok rc =>
          obtain ⟨res, c'⟩ := rc
          refine Or.inr ⟨m, res, ?_⟩
          cases hi : Collection.insert db.patientHistory
              (assignId { P with meta := some m } (I ++ v)) err3 with
          | error e => exact hu
          | ok x => exact hu

theorem reachable_keyedById (db : Db)
    (h : Reachable (fun I P => P.id = none ∨ P.id = some I) db) : KeyedById db.patient := by
  induction h with
  | empty => exact ⟨by simp, by simp⟩
  | create db err I P _ hP ih =>
    unfold Patient.create Collection.insert
    cases err with
    | some e => simpa using ih
    | none =>
      by_cases hany : (db.patient.any fun d => d._id == (assignId P I)._id) = true
      · simpa [hany] using ih
      · simp only [hany, if_false, Bool.false_eq_true]
        exact keyedById_append _ _ ih (by simpa using hany) (by simpa [assignId] using hP)
  | update db now err err2 err3 I P _ hP ih =>
    rcases update_patient_inv db now err err2 err3 I P with h0 | ⟨m, res, h0⟩
    · rw [h0]; exact ih
    · exact keyedById_findOneAndUpdate _ _ _ _ _ _ ih hP h0
  | remove db err err2 I _ ih =>
    unfold Patient.remove Collection.remove
    cases err with
    | some e => simpa using ih
    | none =>
      cases err2 with
      | some e => simpa using keyedById_filter _ _ ih
      | none => simpa using keyedById_filter _ _ ih

/-- C20 as stated fails: two `create` calls under the keys a and b with a payload of id x
leave two current records with id x. -/
theorem one_record_per_id_counterexample :
    Reachable (fun _ _ => True)
      (Patient.create (Patient.create { patient := [], patientHistory := [] } none "a"
        payloadX).2 none "b" payloadX).2 ∧
    ((Patient.create (Patient.create { patient := [], patientHistory := [] } none "a"
        payloadX).2 none "b" payloadX).2.patient.filter (idIs "x")).length = 2 :=
  ⟨Reachable.create _ none "b" payloadX
      (Reachable.create _ none "a" payloadX Reachable.empty trivial) trivial,
    by decide⟩

/-- C20 (amended): in every store reachable from the empty store by Patient `create`,
`update` and `remove` calls whose payload carries the id of the call or no id, the current
collection holds at most one record for any given id. -/
theorem one_record_per_id (db : Db)
    (h : Reachable (fun I P => P.id = none ∨ P.id = some I) db) (I : String) :
    (db.patient.filter (idIs I)).length ≤ 1 := by
  have hk := reachable_keyedById db h
  have hsub := keyedById_filter db.patient (idIs I) hk
  have hall : ∀ d ∈ db.patient.filter (idIs I), d._id = I := by
    intro d hd
    have hp := (List.mem_filter.mp hd).2
    have hdid : d.id = some I := by simpa [idIs] using hp
    rcases hsub.2 d hd with h0 | h0
    · rw [h0] at hdid; cases hdid
    · rw [h0] at hdid; simpa using hdid
  match hl : db.patient.filter (idIs I), hsub.1, hall with
  | [], _, _ => simp
  | [_], _, _ => simp
  | a :: b :: rest, hnd, hall' =>
    exfalso
    have ha := hall' a (by simp)
    have hb := hall' b (by simp)
    simp [ha, hb] at hnd

theorem one_record_per_id_witness :
    (storeFirst0.patient.filter (idIs "0")).length ≤ 1 :=
  one_record_per_id storeFirst0
    (Reachable.update emptyDb "now" none none none "0" payload0 Reachable.empty (by decide)) "0"

/-! ## Lookups in compiled queries -/

theorem lookup_querySet_self {F : Type} (q : Query F) (k : String) (v : QueryValue F) :
    (Query.set q k v).lookup k = some v := by
  induction q with
  | nil => simp [Query.set, List.lookup]
  | cons kv rest ih =>
    obtain ⟨k', v'⟩ := kv
    by_cases hk : k' = k
    · simp [Query.set, hk, List.lookup]
    · have : (k == k') = false := by simpa using fun e => hk e.symm
      simp [Query.set, hk, List.lookup, this, ih]

theorem lookup_querySet_other {F : Type} (q : Query F) (k k' : String) (v : QueryValue F)
    (hne : k' ≠ k) : (Query.set q k v).lookup k' = q.lookup k' := by
  induction q with
  | nil =>
    have : (k' == k) = false := by simpa using hne
    simp [Query.set, List.lookup, this]
  | cons kv rest ih =>
    obtain ⟨k0, v0⟩ := kv
    by_cases hk : k0 = k
    · subst hk
      have : (k' == k0) = false := by simpa using hne
      simp [Query.set, List.lookup, this]
    · by_cases hk' : k' = k0
      · subst hk'
        simp [Query.set, hk, List.lookup]
      · have : (k' == k0) = false := by simpa using hk'
        simp [Query.set, hk, List.lookup, this, ih]

theorem lookup_setAll_of_not_mem {F : Type} (built : List (String × F)) :
    ∀ (q : Query F) (k : String), k ∉ built.map Prod.fst →
      (Query.setAll q built).lookup k = q.lookup k := by
  induction built with
  | nil => intro q k _; rfl
  | cons kv rest ih =>
    intro q k hk
    simp only [List.map_cons, List.mem_cons, not_or] at hk
    simp only [Query.setAll, List.foldl_cons]
    have := ih (Query.set q kv.1 (.frag kv.2)) k hk.2
    simp only [Query.setAll] at this
    rw [this, lookup_querySet_other _ _ _ _ hk.1]

theorem lookup_setAll_of_mem {F : Type} (built : List (String × F)) :
    ∀ (q : Query F), (built.map Prod.fst).Nodup → ∀ kv ∈ built,
      (Query.setAll q built).lookup kv.1 = some (.frag kv.2) := by
  induction built with
  | nil => intro q _ kv hkv; simp at hkv
  | cons x rest ih =>
    intro q hnd kv hkv
    simp only [List.map_cons, List.nodup_cons] at hnd
    rcases List.mem_cons.mp hkv with rfl | hmem
    · have := lookup_setAll_of_not_mem rest (Query.set q kv.1 (.frag kv.2)) kv.1 hnd.1
      simp only [Query.setAll, List.foldl_cons] at this ⊢
      rw [this, lookup_querySet_self]
    · have := ih (Query.set q x.1 (.frag x.2)) hnd.2 kv hmem
      simpa only [Query.setAll, List.foldl_cons] using this

theorem ifSet_some {α : Type} (v : String) (hv : v ≠ "") (body : String → α → α) (s : α) :
    ifSet (some v) body s = body v s := by
  simp [ifSet, hv]

theorem ifSet_none {α : Type} (body : String → α → α) (s : α) : ifSet none body s = s := rfl

theorem ifSet_empty {α : Type} (body : String → α → α) (s : α) :
    ifSet (some "") body s = s := by
  simp [ifSet]

theorem lookup_ifSet_set {F : Type} (arg : Option String) (k : String)
    (g : String → QueryValue F) (q : Query F) (k' : String) (hne : k' ≠ k) :
    (ifSet arg (fun (v : String) (q : Query F) => q.set k (g v)) q).lookup k' = q.lookup k' := by
  unfold ifSet
  split
  · split
    · rfl
    · exact lookup_querySet_other _ _ _ _ hne
  · rfl

theorem lookup_ifSet_setAll {F : Type} (arg : Option String) (built : String → List (String × F))
    (q : Query F) (k : String) (h : ∀ v, k ∉ (built v).map Prod.fst) :
    (ifSet arg (fun (v : String) (q : Query F) => q.setAll (built v)) q).lookup k
      = q.lookup k := by
  unfold ifSet
  split
  · split
    · rfl
    · exact lookup_setAll_of_not_mem _ _ _ (h _)
  · rfl

theorem not_mem_keys_of_not_under {F : Type} (built : List (String × F)) (p : List Char)
    (k : String) (hunder : ∀ kv ∈ built, p <+: kv.1.data) (hk : ¬ p <+: k.data) :
    k ∉ built.map Prod.fst := by
  intro hmem
  obtain ⟨kv, hkv, rfl⟩ := List.mem_map.mp hmem
  exact hk (hunder kv hkv)

/-- Under the contract of the builders, the key `$and` of the Patient search query is written
by the `$and` assignment alone. -/
theorem patient_lookup_and {F : Type} (b : Builders F) (hb : b.FieldPaths)
    (args : Args) :
    (Patient.searchQuery b args).lookup "$and"
      = (if (ifSet args.name (fun (v : String) (ors : List F) => ors ++ b.nameQueryBuilder v)
            (ifSet args.address
              (fun (v : String) (ors : List F) => ors ++ b.addressQueryBuilder v) [])).length ≠ 0
          then some (.all (ifSet args.name
            (fun (v : String) (ors : List F) => ors ++ b.nameQueryBuilder v)
            (ifSet args.address
              (fun (v : String) (ors : List F) => ors ++ b.addressQueryBuilder v) [])))
          else none) := by
  have htok : ∀ (t field s : String), ¬ (field.data ++ ['.']) <+: "$and".data →
      ∀ v, "$and" ∉ (b.tokenQueryBuilder v t field s).map Prod.fst :=
    fun t field s h v => not_mem_keys_of_not_under _ _ _ (hb.token_under v t field s) h
  have href : ∀ (path : String), ¬ path.data <+: "$and".data →
      ∀ v, "$and" ∉ (b.referenceQueryBuilder v path).map Prod.fst :=
    fun path h v => not_mem_keys_of_not_under _ _ _ (hb.reference_under v path) h
  unfold Patient.searchQuery
  simp only []
  rw [lookup_ifSet_setAll _ _ _ _ (htok _ _ _ (by decide)),
    lookup_ifSet_setAll _ _ _ _ (htok _ _ _ (by decide)),
    lookup_ifSet_setAll _ _ _ _ (href _ (by decide)),
    lookup_ifSet_setAll _ _ _ _ (href _ (by decide)),
    lookup_ifSet_setAll _ _ _ _ (htok _ _ _ (by decide)),
    lookup_ifSet_setAll _ _ _ _ (htok _ _ _ (by decide)),
    lookup_ifSet_set _ _ _ _ _ (by decide),
    lookup_ifSet_setAll _ _ _ _ (href _ (by decide)),
    lookup_ifSet_set _ _ _ _ _ (by decide),
    lookup_ifSet_set _ _ _ _ _ (by decide),
    lookup_ifSet_setAll _ _ _ _ (htok _ _ _ (by decide)),
    lookup_ifSet_set _ _ _ _ _ (by decide),
    lookup_ifSet_set _ _ _ _ _ (by decide),
    lookup_ifSet_set _ _ _ _ _ (by decide),
    lookup_ifSet_setAll _ _ _ _ (htok _ _ _ (by decide)),
    lookup_ifSet_setAll _ _ _ _ (htok _ _ _ (by decide)),
    lookup_ifSet_set _ _ _ _ _ (by decide),
    lookup_ifSet_set _ _ _ _ _ (by decide),
    lookup_ifSet_set _ _ _ _ _ (by decide),
    lookup_ifSet_set _ _ _ _ _ (by decide),
    lookup_ifSet_set _ _ _ _ _ (by decide),
    lookup_ifSet_set _ _ _ _ _ (by decide),
    lookup_ifSet_set _ _ _ _ _ (by decide)]
  split
  · simp [Query.set, List.lookup]
  · rfl

/-- Under the contract of the builders, the key `$and` of the Practitioner search query is
written by the `$and` assignment alone. -/
theorem practitioner_lookup_and {F : Type} (b : Builders F) (hb : b.FieldPaths)
    (args : Args) :
    (Practitioner.searchQuery b args).lookup "$and"
      = (if (ifSet args.address
            (fun (v : String) (ors : List F) => ors ++ b.addressQueryBuilder v)
            (ifSet args.name
              (fun (v : String) (ors : List F) => ors ++ b.nameQueryBuilder v) [])).length ≠ 0
          then some (.all (match (ifSet args.address
            (fun (v : String) (ors : List F) => ors ++ b.addressQueryBuilder v)
            (ifSet args.name
              (fun (v : String) (ors : List F) => ors ++ b.nameQueryBuilder v) [])) with
            | [first] => [first, first]
            | ors => ors))
          else none) := by
  have htok : ∀ (t field s : String), ¬ (field.data ++ ['.']) <+: "$and".data →
      ∀ v, "$and" ∉ (b.tokenQueryBuilder v t field s).map Prod.fst :=
    fun t field s h v => not_mem_keys_of_not_under _ _ _ (hb.token_under v t field s) h
  unfold Practitioner.searchQuery
  simp only []
  rw [lookup_ifSet_setAll _ _ _ _ (htok _ _ _ (by decide)),
    lookup_ifSet_setAll _ _ _ _ (htok _ _ _ (by decide)),
    lookup_ifSet_setAll _ _ _ _ (htok _ _ _ (by decide)),
    lookup_ifSet_set _ _ _ _ _ (by decide),
    lookup_ifSet_set _ _ _ _ _ (by decide),
    lookup_ifSet_set _ _ _ _ _ (by decide),
    lookup_ifSet_setAll _ _ _ _ (htok _ _ _ (by decide)),
    lookup_ifSet_setAll _ _ _ _ (htok _ _ _ (by decide)),
    lookup_ifSet_set _ _ _ _ _ (by decide),
    lookup_ifSet_set _ _ _ _ _ (by decide),
    lookup_ifSet_set _ _ _ _ _ (by decide),
    lookup_ifSet_set _ _ _ _ _ (by decide),
    lookup_ifSet_set _ _ _ _ _ (by decide)]
  split
  · rw [lookup_querySet_self]
    generalize (ifSet args.address
      (fun (v : String) (ors : List F) => ors ++ b.addressQueryBuilder v)
      (ifSet args.name (fun (v : String) (ors : List F) => ors ++ b.nameQueryBuilder v) [])) = x
    rcases x with _ | ⟨g, _ | ⟨g2, rest⟩⟩ <;> rfl
  · rw [lookup_ifSet_set _ _ _ _ _ (by decide), lookup_ifSet_set _ _ _ _ _ (by decide)]
    rfl

theorem mem_of_lookup_eq_some {F : Type} (q : Query F) (k : String) (v : QueryValue F)
    (h : q.lookup k = some v) : (k, v) ∈ q := by
  induction q with
  | nil => simp [List.lookup] at h
  | cons kv rest ih =>
    obtain ⟨k', v'⟩ := kv
    by_cases hk : k = k'
    · subst hk
      simp only [List.lookup, beq_self_eq_true, Option.some.injEq] at h
      subst h
      exact List.mem_cons_self _ _
    · have : (k == k') = false := by simpa using hk
      simp only [List.lookup, this] at h
      exact List.mem_cons_of_mem _ (ih h)

theorem sampleBuilders_fieldPaths : sampleBuilders.FieldPaths where
  token_under := by
    intro v t field s kv hkv
    simp only [sampleBuilders, List.mem_singleton] at hkv
    subst hkv
    exact List.prefix_append _ _
  token_distinct := by intro v t field s; simp [sampleBuilders]
  reference_under := by
    intro v path kv hkv
    simp only [sampleBuilders, List.mem_singleton] at hkv
    subst hkv
    exact List.prefix_refl _
  reference_distinct := by intro v path; simp [sampleBuilders]

/-! ## The conjunction list `$and` -/

/-- C13: in a Patient search with both `address` and `name` supplied, the list stored under
`$and` is the fragments of the address builder followed by the fragments of the name
builder, and `$and` is absent when both builders return no fragment; so, `$and` being a
conjunction, a document that matches the query satisfies every address fragment and every
name fragment. -/
theorem search_and_is_address_then_name {F : Type} (b : Builders F) (hb : b.FieldPaths)
    (args : Args) (a n : String)
    (haddr : args.address = some a) (ha : a ≠ "") (hname : args.name = some n) (hn : n ≠ "") :
    (b.addressQueryBuilder a ++ b.nameQueryBuilder n ≠ [] →
      (Patient.searchQuery b args).lookup "$and"
        = some (.all (b.addressQueryBuilder a ++ b.nameQueryBuilder n))) ∧
    (b.addressQueryBuilder a ++ b.nameQueryBuilder n = [] →
      (Patient.searchQuery b args).lookup "$and" = none) ∧
    ∀ (holds : String → QueryValue F → Doc → Bool) (sat : F → Doc → Bool),
      (∀ ors d, holds "$and" (.all ors) d = ors.all fun f => sat f d) →
      ∀ d, matchesQuery holds (Patient.searchQuery b args) d = true →
        (∀ f ∈ b.addressQueryBuilder a, sat f d = true) ∧
        (∀ f ∈ b.nameQueryBuilder n, sat f d = true) := by
  have hsome : b.addressQueryBuilder a ++ b.nameQueryBuilder n ≠ [] →
      (Patient.searchQuery b args).lookup "$and"
        = some (.all (b.addressQueryBuilder a ++ b.nameQueryBuilder n)) := by
    intro hne
    rw [patient_lookup_and b hb args, haddr, hname, ifSet_some a ha, ifSet_some n hn]
    have : ([] ++ b.addressQueryBuilder a ++ b.nameQueryBuilder n).length ≠ 0 := by
      simpa using hne
    rw [if_pos this]
    simp
  refine ⟨hsome, ?_, ?_⟩
  · intro hnil
    rw [patient_lookup_and b hb args, haddr, hname, ifSet_some a ha, ifSet_some n hn]
    have : ¬ ([] ++ b.addressQueryBuilder a ++ b.nameQueryBuilder n).length ≠ 0 := by
      simp [hnil]
    rw [if_neg this]
  · intro holds sat hand d hmatch
    by_cases hnil : b.addressQueryBuilder a ++ b.nameQueryBuilder n = []
    · simp only [List.append_eq_nil] at hnil
      simp [hnil.1, hnil.2]
    · have hmem := mem_of_lookup_eq_some _ _ _ (hsome hnil)
      have := (List.all_eq_true.mp hmatch) _ hmem
      simp only [hand, List.all_eq_true, List.mem_append] at this
      exact ⟨fun f hf => this f (Or.inl hf), fun f hf => this f (Or.inr hf)⟩

theorem search_and_is_address_then_name_witness :
    (Patient.searchQuery sampleBuilders
        { address := some "Ann Arbor", name := some "Ann" }).lookup "$and"
      = some (.all (sampleBuilders.addressQueryBuilder "Ann Arbor"
          ++ sampleBuilders.nameQueryBuilder "Ann")) :=
  (search_and_is_address_then_name sampleBuilders sampleBuilders_fieldPaths
    { address := some "Ann Arbor", name := some "Ann" } "Ann Arbor" "Ann" rfl (by decide) rfl
    (by decide)).1 (by decide)

/-- C18 as stated fails for the Practitioner search: a single fragment is stored twice under
`$and`. -/
theorem single_fragment_counterexample :
    (Practitioner.searchQuery sampleBuilders { name := some "Ann" }).lookup "$and"
      = some (.all ["name~Ann", "name~Ann"]) ∧
    (Patient.searchQuery sampleBuilders { name := some "Ann" }).lookup "$and"
      = some (.all ["name~Ann"]) := by
  decide

/-- C18 (amended): when the address and name builders together yield exactly one fragment
`g`, the Patient search stores it under `$and` as the one-element list `[g]`; the
Practitioner search stores it twice, as `[g, g]`. In neither is it collapsed to a plain field
entry. -/
theorem single_fragment_conjunction {F : Type} (b : Builders F) (hb : b.FieldPaths)
    (args : Args) (g : F) :
    (ifSet args.name (fun (v : String) (ors : List F) => ors ++ b.nameQueryBuilder v)
        (ifSet args.address
          (fun (v : String) (ors : List F) => ors ++ b.addressQueryBuilder v) []) = [g] →
      (Patient.searchQuery b args).lookup "$and" = some (.all [g])) ∧
    (ifSet args.address (fun (v : String) (ors : List F) => ors ++ b.addressQueryBuilder v)
        (ifSet args.name
          (fun (v : String) (ors : List F) => ors ++ b.nameQueryBuilder v) []) = [g] →
      (Practitioner.searchQuery b args).lookup "$and" = some (.all [g, g])) := by
  refine ⟨fun h => ?_, fun h => ?_⟩
  · rw [patient_lookup_and b hb args, h]
    simp
  · rw [practitioner_lookup_and b hb args, h]
    simp

theorem single_fragment_conjunction_witness :
    (Patient.searchQuery sampleBuilders { name := some "Ann" }).lookup "$and"
      = some (.all ["name~Ann"]) ∧
    (Practitioner.searchQuery sampleBuilders { name := some "Ann" }).lookup "$and"
      = some (.all ["name~Ann", "name~Ann"]) :=
  ⟨(single_fragment_conjunction sampleBuilders sampleBuilders_fieldPaths
      { name := some "Ann" } "name~Ann").1 (by decide),
    (single_fragment_conjunction sampleBuilders sampleBuilders_fieldPaths
      { name := some "Ann" } "name~Ann").2 (by decide)⟩

/-! ## Parameters that write the same field path -/

theorem ifSet_falsy {α : Type} (arg : Option String) (h : arg = none ∨ arg = some "")
    (body : String → α → α) (s : α) : ifSet arg body s = s := by
  rcases h with h | h <;> simp [ifSet, h]

theorem not_mem_keys_of_clash {F : Type} (built : List (String × F)) (p q : List Char)
    (k : String) (hunder : ∀ kv ∈ built, p <+: kv.1.data) (hk : q <+: k.data)
    (h1 : ¬ p <+: q) (h2 : ¬ q <+: p) : k ∉ built.map Prod.fst := by
  intro hmem
  obtain ⟨kv, hkv, rfl⟩ := List.mem_map.mp hmem
  rcases List.prefix_or_prefix_of_prefix (hunder kv hkv) hk with h | h
  · exact h1 h
  · exact h2 h

theorem ne_of_under (q : List Char) (k s : String) (hk : q <+: k.data) (hs : ¬ q <+: s.data) :
    k ≠ s := by
  intro h
  subst h
  exact hs hk

theorem lookup_querySet_congr {F : Type} (q1 q2 : Query F) (k0 : String) (v : QueryValue F)
    (k : String) (h : q1.lookup k = q2.lookup k) :
    (Query.set q1 k0 v).lookup k = (Query.set q2 k0 v).lookup k := by
  by_cases hk : k = k0
  · subst hk
    rw [lookup_querySet_self, lookup_querySet_self]
  · rw [lookup_querySet_other _ _ _ _ hk, lookup_querySet_other _ _ _ _ hk, h]

theorem lookup_setAll_congr {F : Type} (built : List (String × F)) :
    ∀ (q1 q2 : Query F) (k : String), q1.lookup k = q2.lookup k →
      (Query.setAll q1 built).lookup k = (Query.setAll q2 built).lookup k := by
  induction built with
  | nil => intro q1 q2 k h; exact h
  | cons kv rest ih =>
    intro q1 q2 k h
    have := ih (Query.set q1 kv.1 (.frag kv.2)) (Query.set q2 kv.1 (.frag kv.2)) k
      (lookup_querySet_congr _ _ _ _ _ h)
    simpa only [Query.setAll, List.foldl_cons] using this

theorem lookup_ifSet_setAll_congr {F : Type} (arg : Option String)
    (built : String → List (String × F)) (q1 q2 : Query F) (k : String)
    (h : q1.lookup k = q2.lookup k) :
    (ifSet arg (fun (v : String) (q : Query F) => q.setAll (built v)) q1).lookup k
      = (ifSet arg (fun (v : String) (q : Query F) => q.setAll (built v)) q2).lookup k := by
  unfold ifSet
  split
  · split
    · exact h
    · exact lookup_setAll_congr _ _ _ _ h
  · exact h

/-- Under the contract of the builders, what the Patient search query holds at a path under
`telecom` is what the assignments of `email`, `phone` and `telecom`, in this order, leave
there: no other step of the search writes such a path. -/
theorem patient_lookup_telecom {F : Type} (b : Builders F) (hb : b.FieldPaths)
    (args : Args) (k : String) (hk : ("telecom".data ++ ['.']) <+: k.data) :
    (Patient.searchQuery b args).lookup k
      = (ifSet args.telecom
          (fun (v : String) (q : Query F) => q.setAll (b.tokenQueryBuilder v "value" "telecom" ""))
          (ifSet args.phone
            (fun (v : String) (q : Query F) =>
              q.setAll (b.tokenQueryBuilder v "value" "telecom" "phone"))
            (ifSet args.email
              (fun (v : String) (q : Query F) =>
                q.setAll (b.tokenQueryBuilder v "value" "telecom" "email")) []))).lookup k := by
  have htok : ∀ (t field s : String),
      ¬ (field.data ++ ['.']) <+: ("telecom".data ++ ['.']) →
      ¬ ("telecom".data ++ ['.']) <+: (field.data ++ ['.']) →
      ∀ v, k ∉ (b.tokenQueryBuilder v t field s).map Prod.fst :=
    fun t field s h1 h2 v => not_mem_keys_of_clash _ _ _ _ (hb.token_under v t field s) hk h1 h2
  have href : ∀ (path : String),
      ¬ path.data <+: ("telecom".data ++ ['.']) →
      ¬ ("telecom".data ++ ['.']) <+: path.data →
      ∀ v, k ∉ (b.referenceQueryBuilder v path).map Prod.fst :=
    fun path h1 h2 v => not_mem_keys_of_clash _ _ _ _ (hb.reference_under v path) hk h1 h2
  have hne : ∀ s : String, ¬ ("telecom".data ++ ['.']) <+: s.data → k ≠ s :=
    fun s hs => ne_of_under _ _ _ hk hs
  unfold Patient.searchQuery
  simp only []
  apply lookup_ifSet_setAll_congr
  apply lookup_ifSet_setAll_congr
  rw [lookup_ifSet_setAll _ _ _ _ (href _ (by decide) (by decide)),
    lookup_ifSet_setAll _ _ _ _ (href _ (by decide) (by decide)),
    lookup_ifSet_setAll _ _ _ _ (htok _ _ _ (by decide) (by decide)),
    lookup_ifSet_setAll _ _ _ _ (htok _ _ _ (by decide) (by decide)),
    lookup_ifSet_set _ _ _ _ _ (hne _ (by decide)),
    lookup_ifSet_setAll _ _ _ _ (href _ (by decide) (by decide)),
    lookup_ifSet_set _ _ _ _ _ (hne _ (by decide)),
    lookup_ifSet_set _ _ _ _ _ (hne _ (by decide))]
  apply lookup_ifSet_setAll_congr
  rw [lookup_ifSet_set _ _ _ _ _ (hne _ (by decide)),
    lookup_ifSet_set _ _ _ _ _ (hne _ (by decide)),
    lookup_ifSet_set _ _ _ _ _ (hne _ (by decide)),
    lookup_ifSet_setAll _ _ _ _ (htok _ _ _ (by decide) (by decide)),
    lookup_ifSet_setAll _ _ _ _ (htok _ _ _ (by decide) (by decide)),
    lookup_ifSet_set _ _ _ _ _ (hne _ (by decide)),
    lookup_ifSet_set _ _ _ _ _ (hne _ (by decide)),
    lookup_ifSet_set _ _ _ _ _ (hne _ (by decide)),
    lookup_ifSet_set _ _ _ _ _ (hne _ (by decide)),
    lookup_ifSet_set _ _ _ _ _ (hne _ (by decide)),
    lookup_ifSet_set _ _ _ _ _ (hne _ (by decide)),
    lookup_ifSet_set _ _ _ _ _ (hne _ (by decide))]
  split
  · exact lookup_querySet_other _ _ _ _ (hne _ (by decide))
  · rfl

/-- The keys of a query after the assignment `query[k] = v`: those before, with `k` added at
the end when it was not among them. -/
theorem keys_querySet {F : Type} (q : Query F) (k : String) (v : QueryValue F) :
    (Query.set q k v).map Prod.fst
      = if k ∈ q.map Prod.fst then q.map Prod.fst else q.map Prod.fst ++ [k] := by
  induction q with
  | nil => simp [Query.set]
  | cons kv rest ih =>
    obtain ⟨k', v'⟩ := kv
    by_cases hk : k' = k
    · subst hk
      simp [Query.set]
    · have hk' : ¬ k = k' := fun h => hk h.symm
      simp only [Query.set, hk, if_false, List.map_cons, ih, List.mem_cons, hk', false_or]
      split <;> simp

theorem nodup_querySet {F : Type} (q : Query F) (k : String) (v : QueryValue F)
    (h : (q.map Prod.fst).Nodup) : ((Query.set q k v).map Prod.fst).Nodup := by
  rw [keys_querySet]
  split
  · exact h
  · rename_i hk
    exact List.Nodup.append h (List.nodup_singleton k) (by simpa using hk)

theorem nodup_setAll {F : Type} (built : List (String × F)) :
    ∀ (q : Query F), (q.map Prod.fst).Nodup → ((Query.setAll q built).map Prod.fst).Nodup := by
  induction built with
  | nil => intro q h; exact h
  | cons kv rest ih =>
    intro q h
    have := ih (Query.set q kv.1 (.frag kv.2)) (nodup_querySet _ _ _ h)
    simpa only [Query.setAll, List.foldl_cons] using this

theorem nodup_ifSet_set {F : Type} (arg : Option String) (k : String)
    (g : String → QueryValue F) (q : Query F) (h : (q.map Prod.fst).Nodup) :
    ((ifSet arg (fun (v : String) (q : Query F) => q.set k (g v)) q).map Prod.fst).Nodup := by
  unfold ifSet
  split
  · split
    · exact h
    · exact nodup_querySet _ _ _ h
  · exact h

theorem nodup_ifSet_setAll {F : Type} (arg : Option String)
    (built : String → List (String × F)) (q : Query F) (h : (q.map Prod.fst).Nodup) :
    ((ifSet arg (fun (v : String) (q : Query F) => q.setAll (built v)) q).map Prod.fst).Nodup := by
  unfold ifSet
  split
  · split
    · exact h
    · exact nodup_setAll _ _ h
  · exact h

/-- The Patient search query holds each of its keys once: every step assigns into the one
query object. -/
theorem patient_query_keys_nodup {F : Type} (b : Builders F) (args : Args) :
    ((Patient.searchQuery b args).map Prod.fst).Nodup := by
  unfold Patient.searchQuery
  simp only []
  repeat first
    | apply nodup_ifSet_setAll
    | apply nodup_ifSet_set
  split
  · exact nodup_querySet _ _ _ List.nodup_nil
  · exact List.nodup_nil

/-- In a query that holds each key once, the entry found at a key is the only entry with
that key. -/
theorem eq_of_mem_of_lookup {F : Type} (q : Query F) (hnd : (q.map Prod.fst).Nodup)
    (k : String) (v v' : QueryValue F) (hl : q.lookup k = some v) (hm : (k, v') ∈ q) :
    v' = v := by
  induction q with
  | nil => simp at hm
  | cons kv rest ih =>
    obtain ⟨k0, v0⟩ := kv
    simp only [List.map_cons, List.nodup_cons] at hnd
    by_cases hk : k = k0
    · subst hk
      simp only [List.lookup, beq_self_eq_true, Option.some.injEq] at hl
      subst hl
      rcases List.mem_cons.mp hm with h | h
      · exact (Prod.mk.inj h).2
      · exact absurd (List.mem_map.mpr ⟨(k, v'), h, rfl⟩) hnd.1
    · have hb : (k == k0) = false := by simpa using hk
      simp only [List.lookup, hb] at hl
      rcases List.mem_cons.mp hm with h | h
      · exact absurd (Prod.mk.inj h).1 hk
      · exact ih hnd.2 hl h

/-- What the Patient search query holds at the paths of two builders that both assigned into
it, the later one last: at every path of the later one its fragment and no other entry, so
not the fragment the earlier one produced for that path; at every path of the earlier one
alone the fragment of the earlier one and no other entry. -/
theorem later_assignment_wins {F : Type} (q : Query F) (hnd : (q.map Prod.fst).Nodup)
    (earlier later : List (String × F))
    (hlater : ∀ kv ∈ later, q.lookup kv.1 = some (.frag kv.2))
    (hearlier : ∀ kv ∈ earlier, kv.1 ∉ later.map Prod.fst →
      q.lookup kv.1 = some (.frag kv.2)) :
    (∀ kv ∈ later,
      q.lookup kv.1 = some (.frag kv.2) ∧ ∀ v, (kv.1, v) ∈ q → v = .frag kv.2) ∧
    (∀ ke ∈ earlier, ∀ kl ∈ later, ke.1 = kl.1 → ke.2 ≠ kl.2 →
      (ke.1, QueryValue.frag ke.2) ∉ q) ∧
    (∀ kv ∈ earlier, kv.1 ∉ later.map Prod.fst →
      q.lookup kv.1 = some (.frag kv.2) ∧ ∀ v, (kv.1, v) ∈ q → v = .frag kv.2) := by
  refine ⟨fun kv hkv => ⟨hlater kv hkv, fun v hv => ?_⟩, fun ke _ kl hkl hk hne hmem => ?_,
    fun kv hkv hnot => ⟨hearlier kv hkv hnot, fun v hv => ?_⟩⟩
  · exact eq_of_mem_of_lookup q hnd _ _ _ (hlater kv hkv) hv
  · rw [hk] at hmem
    have := eq_of_mem_of_lookup q hnd _ _ _ (hlater kl hkl) hmem
    exact hne (QueryValue.frag.inj this)
  · exact eq_of_mem_of_lookup q hnd _ _ _ (hearlier kv hkv hnot) hv

/-- C19: in the Patient search, when two of `email`, `phone` and `telecom` are supplied, the
query holds at every path of the later one (in the order email, phone, telecom) the fragment
of the later one and no other entry, so that where the earlier one produced the same path
with another fragment, that fragment is absent from the query; and at every path that only
the earlier one produced it holds the fragment of the earlier one and no other entry. The
query holds each of its keys once. -/
theorem telecom_later_parameter_wins {F : Type} (b : Builders F) (hb : b.FieldPaths)
    (args : Args) :
    ((Patient.searchQuery b args).map Prod.fst).Nodup ∧
    (∀ e p, args.email = some e → e ≠ "" → args.phone = some p → p ≠ "" →
      (args.telecom = none ∨ args.telecom = some "") →
      (∀ kv ∈ b.tokenQueryBuilder p "value" "telecom" "phone",
        (Patient.searchQuery b args).lookup kv.1 = some (.frag kv.2) ∧
        ∀ v, (kv.1, v) ∈ Patient.searchQuery b args → v = .frag kv.2) ∧
      (∀ ke ∈ b.tokenQueryBuilder e "value" "telecom" "email",
        ∀ kl ∈ b.tokenQueryBuilder p "value" "telecom" "phone", ke.1 = kl.1 → ke.2 ≠ kl.2 →
        (ke.1, QueryValue.frag ke.2) ∉ Patient.searchQuery b args) ∧
      (∀ kv ∈ b.tokenQueryBuilder e "value" "telecom" "email",
        kv.1 ∉ (b.tokenQueryBuilder p "value" "telecom" "phone").map Prod.fst →
        (Patient.searchQuery b args).lookup kv.1 = some (.frag kv.2) ∧
        ∀ v, (kv.1, v) ∈ Patient.searchQuery b args → v = .frag kv.2)) ∧
    (∀ e t, args.email = some e → e ≠ "" → args.telecom = some t → t ≠ "" →
      (args.phone = none ∨ args.phone = some "") →
      (∀ kv ∈ b.tokenQueryBuilder t "value" "telecom" "",
        (Patient.searchQuery b args).lookup kv.1 = some (.frag kv.2) ∧
        ∀ v, (kv.1, v) ∈ Patient.searchQuery b args → v = .frag kv.2) ∧
      (∀ ke ∈ b.tokenQueryBuilder e "value" "telecom" "email",
        ∀ kl ∈ b.tokenQueryBuilder t "value" "telecom" "", ke.1 = kl.1 → ke.2 ≠ kl.2 →
        (ke.1, QueryValue.frag ke.2) ∉ Patient.searchQuery b args) ∧
      (∀ kv ∈ b.tokenQueryBuilder e "value" "telecom" "email",
        kv.1 ∉ (b.tokenQueryBuilder t "value" "telecom" "").map Prod.fst →
        (Patient.searchQuery b args).lookup kv.1 = some (.frag kv.2) ∧
        ∀ v, (kv.1, v) ∈ Patient.searchQuery b args → v = .frag kv.2)) ∧
    (∀ p t, args.phone = some p → p ≠ "" → args.telecom = some t → t ≠ "" →
      (args.email = none ∨ args.email = some "") →
      (∀ kv ∈ b.tokenQueryBuilder t "value" "telecom" "",
        (Patient.searchQuery b args).lookup kv.1 = some (.frag kv.2) ∧
        ∀ v, (kv.1, v) ∈ Patient.searchQuery b args → v = .frag kv.2) ∧
      (∀ ke ∈ b.tokenQueryBuilder p "value" "telecom" "phone",
        ∀ kl ∈ b.tokenQueryBuilder t "value" "telecom" "", ke.1 = kl.1 → ke.2 ≠ kl.2 →
        (ke.1, QueryValue.frag ke.2) ∉ Patient.searchQuery b args) ∧
      (∀ kv ∈ b.tokenQueryBuilder p "value" "telecom" "phone",
        kv.1 ∉ (b.tokenQueryBuilder t "value" "telecom" "").map Prod.fst →
        (Patient.searchQuery b args).lookup kv.1 = some (.frag kv.2) ∧
        ∀ v, (kv.1, v) ∈ Patient.searchQuery b args → v = .frag kv.2)) := by
  refine ⟨patient_query_keys_nodup b args, ?_, ?_, ?_⟩
  · intro e p he hev hp hpv ht
    refine later_assignment_wins _ (patient_query_keys_nodup b args) _ _
      (fun kv hkv => ?_) (fun kv hkv hnot => ?_)
    · rw [patient_lookup_telecom b hb args kv.1 (hb.token_under _ _ _ _ kv hkv), ifSet_falsy _ ht,
        hp, ifSet_some p hpv]
      exact lookup_setAll_of_mem _ _ (hb.token_distinct _ _ _ _) kv hkv
    · rw [patient_lookup_telecom b hb args kv.1 (hb.token_under _ _ _ _ kv hkv), ifSet_falsy _ ht,
        hp, ifSet_some p hpv, lookup_setAll_of_not_mem _ _ _ hnot, he, ifSet_some e hev]
      exact lookup_setAll_of_mem _ _ (hb.token_distinct _ _ _ _) kv hkv
  · intro e t he hev ht htv hp
    refine later_assignment_wins _ (patient_query_keys_nodup b args) _ _
      (fun kv hkv => ?_) (fun kv hkv hnot => ?_)
    · rw [patient_lookup_telecom b hb args kv.1 (hb.token_under _ _ _ _ kv hkv), ht,
        ifSet_some t htv]
      exact lookup_setAll_of_mem _ _ (hb.token_distinct _ _ _ _) kv hkv
    · rw [patient_lookup_telecom b hb args kv.1 (hb.token_under _ _ _ _ kv hkv), ht,
        ifSet_some t htv, lookup_setAll_of_not_mem _ _ _ hnot, ifSet_falsy _ hp, he,
        ifSet_some e hev]
      exact lookup_setAll_of_mem _ _ (hb.token_distinct _ _ _ _) kv hkv
  · intro p t hp hpv ht htv he
    refine later_assignment_wins _ (patient_query_keys_nodup b args) _ _
      (fun kv hkv => ?_) (fun kv hkv hnot => ?_)
    · rw [patient_lookup_telecom b hb args kv.1 (hb.token_under _ _ _ _ kv hkv), ht,
        ifSet_some t htv]
      exact lookup_setAll_of_mem _ _ (hb.token_distinct _ _ _ _) kv hkv
    · rw [patient_lookup_telecom b hb args kv.1 (hb.token_under _ _ _ _ kv hkv), ht,
        ifSet_some t htv, lookup_setAll_of_not_mem _ _ _ hnot, hp, ifSet_some p hpv]
      exact lookup_setAll_of_mem _ _ (hb.token_distinct _ _ _ _) kv hkv

theorem telecom_later_parameter_wins_witness :
    (Patient.searchQuery sampleBuilders { email := some "a@b", phone := some "555" }).lookup
        "telecom.value" = some (.frag "phone|555") ∧
    ("telecom.value", QueryValue.frag "email|a@b")
      ∉ Patient.searchQuery sampleBuilders { email := some "a@b", phone := some "555" } :=
  ⟨(((telecom_later_parameter_wins sampleBuilders sampleBuilders_fieldPaths
      { email := some "a@b", phone := some "555" }).2.1 "a@b" "555" rfl (by decide) rfl
      (by decide) (Or.inl rfl)).1 ("telecom.value", "phone|555") (by decide)).1,
    (telecom_later_parameter_wins sampleBuilders sampleBuilders_fieldPaths
      { email := some "a@b", phone := some "555" }).2.1 "a@b" "555" rfl (by decide) rfl
      (by decide) (Or.inl rfl) |>.2.1 ("telecom.value", "email|a@b") (by decide)
      ("telecom.value", "phone|555") (by decide) rfl (by decide)⟩

/-! ## A failed history insert, the history key, the stored meta -/

theorem mem_replaceFirst_of_find? (p : Doc → Bool) (f : Doc → Doc) (c : Collection) (old : Doc)
    (h : c.find? p = some old) : f old ∈ replaceFirst p f c := by
  induction c with
  | nil => simp at h
  | cons d ds ih =>
    by_cases hd : p d = true
    · simp only [List.find?, hd] at h
      cases h
      simp [replaceFirst, hd]
    · have hd' : p d = false := by simpa using hd
      simp only [List.find?, hd'] at h
      simp only [replaceFirst, hd']
      exact List.mem_cons_of_mem _ (ih h)

/-- The document that a successful upsert of `update` wrote: it is stored under the key `I`
with the computed meta, and it is the current record for `I` when the payload carries id `I`
or no id. -/
theorem upsert_written {c : Collection} {I : String} {P : Resource} {m : Meta}
    {res : FindAndModifyResult} {c' : Collection}
    (hu : Collection.findOneAndUpdate c I (assignId { P with meta := some m } I) none
      = .ok (res, c')) :
    (∃ cur ∈ c', cur._id = I ∧ cur.meta = some m) ∧
    ((P.id = none ∨ P.id = some I) → ∃ cur, c'.find? (idIs I) = some cur ∧ cur.meta = some m) := by
  rcases findOneAndUpdate_ok_inv hu with ⟨old, hold, _, _, hc'⟩ | ⟨hnone, _, hc'⟩
  · subst hc'
    refine ⟨⟨_, mem_replaceFirst_of_find? _ _ _ _ hold, rfl, rfl⟩, fun hid => ?_⟩
    refine ⟨_, find?_replaceFirst _ _ _ _ hold ?_, rfl⟩
    have holdid : old.id = some I := idIs_of_find? hold
    rcases hid with hid | hid <;> simp [idIs, applySet, assignId, hid, holdid]
  · subst hc'
    refine ⟨⟨_, List.mem_append_right _ (List.mem_singleton_self _), rfl, rfl⟩, fun hid => ?_⟩
    refine ⟨applySet { _id := I, id := some I, meta := none, fields := [] }
      (assignId { P with meta := some m } I), ?_, rfl⟩
    simp only [List.find?_append, hnone, Option.none_or]
    rcases hid with hid | hid <;> simp [List.find?, idIs, applySet, assignId, hid]

/-- C21 as stated fails. When the history insert fails because its key is taken, a history
record of that id and version does exist: here version 1 of id 0 was left behind, the update
of the absent id 0 writes the current record, and the insert under the key 01 is refused.
And with a payload of another id the record written is not found under id 0. -/
theorem update_insert_failure_counterexample :
    Patient.update storeOrphanHistory "now" none none none "0" payload0
      = (.rejected (.storage duplicateKey),
          { patient := storeFirst0.patient, patientHistory := storeOrphanHistory.patientHistory }) ∧
    Patient.searchByVersionId storeOrphanHistory none "0" "1"
      = .resolved storeOrphanHistory.patientHistory.head? ∧
    storeOrphanHistory.patientHistory.head? ≠ none ∧
    (Patient.update store0 "now" none none (some ⟨"connection lost"⟩) "0" payload9).1
      = .rejected (.storage ⟨"connection lost"⟩) ∧
    (Patient.update store0 "now" none none (some ⟨"connection lost"⟩) "0" payload9).2.patient.find?
      (idIs "0") = none ∧
    (Patient.update store0 "now" none none (some ⟨"connection lost"⟩) "0"
      payload9).2.patientHistory = [] := by
  decide

/-- C21 (amended): if in `update(I, P)` the read and the upsert of the current record succeed
and the history insert fails, the promise rejects with the error of the insert, the current
collection stays as the upsert left it and the history collection stays exactly as it was
before the call. The document written is stored under the key `I` at the newly computed
version, and it is the current record for `I` when the payload carries id `I` or no id.
Without a storage fault the insert fails on a duplicate key, and then the history
collection holds a record under the key `I ++ versionId` already, whatever its id and
version are. -/
theorem update_insert_failure_keeps_upsert (db : Db) (now : String) (err3 : Option MongoError)
    (I : String) (P : Resource) (res : FindAndModifyResult) (c' : Collection) (e3 : MongoError)
    (hu : Collection.findOneAndUpdate db.patient I
        (assignId { P with meta := some (Patient.newMeta now (db.patient.find? (idIs I))).2 } I)
        none = .ok (res, c'))
    (hi : Collection.insert db.patientHistory
        (assignId { P with meta := some (Patient.newMeta now (db.patient.find? (idIs I))).2 }
          (I ++ (Patient.newMeta now (db.patient.find? (idIs I))).1)) err3 = .error e3) :
    Patient.update db now none none err3 I P
      = (.rejected (.storage e3), { patient := c', patientHistory := db.patientHistory }) ∧
    (∃ cur ∈ c', cur._id = I ∧
      (cur.meta.bind fun m => m.versionId)
        = some (Patient.newMeta now (db.patient.find? (idIs I))).1) ∧
    ((P.id = none ∨ P.id = some I) →
      ∃ cur, c'.find? (idIs I) = some cur ∧
        (cur.meta.bind fun m => m.versionId)
          = some (Patient.newMeta now (db.patient.find? (idIs I))).1) ∧
    (err3 = none →
      e3 = duplicateKey ∧
      ∃ d ∈ db.patientHistory,
        d._id = I ++ (Patient.newMeta now (db.patient.find? (idIs I))).1) := by
  cases hm : Patient.newMeta now (db.patient.find? (idIs I)) with
  | mk v m =>
    rw [hm] at hu hi
    simp only at hu hi
    have hv := newMeta_versionId hm
    obtain ⟨⟨cur, hcur, hkey, hmeta⟩, hfind⟩ := upsert_written hu
    refine ⟨?_, ⟨cur, hcur, hkey, by simp [hmeta, hv]⟩, fun hid => ?_, fun h3 => ?_⟩
    · simp only [Patient.update, Collection.findOne, hm, hu, hi]
    · obtain ⟨cur', h1, h2⟩ := hfind hid
      exact ⟨cur', h1, by simp [h2, hv]⟩
    · subst h3
      unfold Collection.insert at hi
      simp only at hi
      split at hi
      · rename_i hany
        refine ⟨by simpa using hi.symm, ?_⟩
        obtain ⟨d, hd, hd'⟩ := List.any_eq_true.mp hany
        exact ⟨d, hd, by simpa [assignId] using hd'⟩
      · cases hi

theorem update_insert_failure_keeps_upsert_witness :
    Patient.update storeOrphanHistory "now" none none none "0" payload0
      = (.rejected (.storage duplicateKey),
          { patient := storeFirst0.patient,
            patientHistory := storeOrphanHistory.patientHistory }) :=
  (update_insert_failure_keeps_upsert storeOrphanHistory "now" none "0" payload0
    { value := none, updatedExisting := false } storeFirst0.patient duplicateKey rfl rfl).1

theorem toString_nat_injective (m n : Nat) (h : toString m = toString n) : m = n := by
  have hm := parseInt_toString m
  rw [h, parseInt_toString n] at hm
  simpa using hm.symm

/-- C22 as stated fails: id 1 at version 23 and id 12 at version 3 have the same history key,
and `update` runs into it: from ids 1 and 12 at versions 22 and 2, the update of 1 stores
its history under the key 123 and the update of 12 is then refused that key. -/
theorem historyKey_collision_counterexample :
    historyKey "1" (toString 23) = historyKey "12" (toString 3) ∧ "1" ≠ "12" ∧
    (Patient.update storeCollidingKeys "now" none none none "1"
        { id := some "1", meta := none, fields := [] }).1
      = .resolved { id := some "1", created := false, resource_version := "23" } ∧
    ((Patient.update storeCollidingKeys "now" none none none "1"
        { id := some "1", meta := none, fields := [] }).2.patientHistory.map fun d => d._id)
      = ["123"] ∧
    (Patient.update
        (Patient.update storeCollidingKeys "now" none none none "1"
          { id := some "1", meta := none, fields := [] }).2
        "now" none none none "12" { id := some "12", meta := none, fields := [] }).1
      = .rejected (.storage duplicateKey) := by
  decide

/-- C22 (amended): for ids `I`, `J` of the same length, in particular for one id, and version
numbers `m`, `n`: if the history key of `I` and the decimal string of `m` equals that of `J`
and `n`, then `I = J` and `m = n`. -/
theorem historyKey_injective_of_same_length (I J : String) (m n : Nat)
    (hlen : I.length = J.length)
    (h : historyKey I (toString m) = historyKey J (toString n)) : I = J ∧ m = n := by
  have hdata : I.data ++ (toString m).data = J.data ++ (toString n).data := by
    have := congrArg String.data h
    simpa [historyKey] using this
  have hl : I.data.length = J.data.length := hlen
  obtain ⟨h1, h2⟩ := List.append_inj hdata hl
  exact ⟨String.ext h1, toString_nat_injective m n (String.ext h2)⟩

theorem historyKey_injective_of_same_length_witness :
    historyKey "0" (toString 2) = historyKey "0" (toString 2) ∧ "0" = "0" ∧ 2 = 2 :=
  ⟨rfl, historyKey_injective_of_same_length "0" "0" 2 2 (by decide) (by decide)⟩

/-- C23: a successful `update(I, P)` over a current record with a meta stores that meta with
only `versionId` replaced, by the reported version: `lastUpdated` and every other field are
those of the previous meta. It is the meta of the document written under the key `I`, of
the appended history record, and of the current record for `I` when the payload carries id
`I` or no id. When the current record is absent or has no meta, the meta stored is
`{ versionId: '1', lastUpdated: now }`. -/
theorem update_keeps_meta_fields (db : Db) (now : String) (err err2 err3 : Option MongoError)
    (I : String) (P : Resource) (r : Patient.UpdateResult) (db' : Db)
    (h : Patient.update db now err err2 err3 I P = (.resolved r, db')) :
    ∃ stored : Meta,
      (∀ d m, db.patient.find? (idIs I) = some d → d.meta = some m →
        stored = { m with versionId := some r.resource_version }) ∧
      (((db.patient.find? (idIs I)).bind fun d => d.meta) = none →
        stored = { versionId := some "1", lastUpdated := some now, extra := [] }) ∧
      (∃ cur ∈ db'.patient, cur._id = I ∧ cur.meta = some stored) ∧
      (∃ hist, db'.patientHistory = db.patientHistory ++ [hist] ∧ hist.meta = some stored) ∧
      ((P.id = none ∨ P.id = some I) →
        ∃ cur, db'.patient.find? (idIs I) = some cur ∧ cur.meta = some stored) := by
  obtain ⟨v, m', res, c', hm, hu, _, hr, hdb⟩ := update_resolved_inv h
  subst hr
  subst hdb
  obtain ⟨hw, hfind⟩ := upsert_written hu
  refine ⟨m', ?_, ?_, hw, ⟨_, rfl, rfl⟩, hfind⟩
  · intro d m hd hmeta
    rw [hd, newMeta_of_meta now d m hmeta] at hm
    simp only [Prod.mk.injEq] at hm
    obtain ⟨h1, h2⟩ := hm
    subst h1
    exact h2.symm
  · intro hnone
    rw [newMeta_of_none now _ hnone] at hm
    simp only [Prod.mk.injEq] at hm
    exact hm.2.symm

theorem update_keeps_meta_fields_witness :
    ∃ stored : Meta,
      (∀ d m, store0.patient.find? (idIs "0") = some d → d.meta = some m →
        stored = { m with versionId := some response0v2.resource_version }) ∧
      (((store0.patient.find? (idIs "0")).bind fun d => d.meta) = none →
        stored = { versionId := some "1", lastUpdated := some "now", extra := [] }) ∧
      (∃ cur ∈ store0v2.patient, cur._id = "0" ∧ cur.meta = some stored) ∧
      (∃ hist, store0v2.patientHistory = store0.patientHistory ++ [hist] ∧
        hist.meta = some stored) ∧
      ((payload0.id = none ∨ payload0.id = some "0") →
        ∃ cur, store0v2.patient.find? (idIs "0") = some cur ∧ cur.meta = some stored) :=
  update_keeps_meta_fields store0 "now" none none none "0" payload0 response0v2 store0v2
    (by decide)

/-- C24 (defects of the code): of the nine functions of the DeviceUseStatement service,
seven forward to the function of the same name of the base service. `searchByVersionId`
forwards to `search`, and `history` throws a ReferenceError of its own, for the unbound
identifier `cotnext`, without calling the base service. -/
theorem deviceUseStatement_forwarding {α κ ρ : Type} (base : BaseService α κ ρ)
    (collection_name : String) (args : α) (context : κ) :
    DeviceUseStatement.searchByVersionId base collection_name args context
      = .returned (base.search
          [.args args, .context context, .text "DeviceUseStatement", .text collection_name]) ∧
    DeviceUseStatement.history base collection_name args
      = .thrown "ReferenceError: cotnext is not defined" ∧
    DeviceUseStatement.searchByVersionId namedBase "deviceusestatements" () ()
      = .returned "search" ∧
    DeviceUseStatement.search base collection_name args
      = .returned (base.search [.args args, .text "DeviceUseStatement", .text collection_name]) ∧
    DeviceUseStatement.searchById base collection_name args
      = .returned (base.searchById
          [.args args, .text "DeviceUseStatement", .text collection_name]) ∧
    DeviceUseStatement.create base collection_name args context
      = .returned (base.create
          [.args args, .req context, .text "DeviceUseStatement", .text collection_name]) ∧
    DeviceUseStatement.update base collection_name args context
      = .returned (base.update
          [.args args, .req context, .text "DeviceUseStatement", .text collection_name]) ∧
    DeviceUseStatement.remove base collection_name args context
      = .returned (base.remove
          [.args args, .context context, .text "DeviceUseStatement", .text collection_name]) ∧
    DeviceUseStatement.historyById base collection_name args context
      = .returned (base.historyById
          [.args args, .context context, .text "DeviceUseStatement", .text collection_name]) ∧
    DeviceUseStatement.patch base collection_name args context
      = .returned (base.patch
          [.args args, .context context, .text "DeviceUseStatement", .text collection_name]) :=
  ⟨rfl, rfl, rfl, rfl, rfl, rfl, rfl, rfl, rfl, rfl⟩

/-- C25: two payloads that differ only in their meta get the same outcome of `update`, under
the same store, id, time and storage faults: the same response or rejection and the same
store afterwards, so the same current record and the same history record. -/
theorem update_ignores_payload_meta (db : Db) (now : String)
    (err err2 err3 : Option MongoError) (I : String) (P P' : Resource)
    (hid : P.id = P'.id) (hfields : P.fields = P'.fields) :
    Patient.update db now err err2 err3 I P = Patient.update db now err err2 err3 I P' := by
  obtain ⟨pid, pmeta, pfields⟩ := P
  obtain ⟨pid', pmeta', pfields'⟩ := P'
  simp only at hid hfields
  subst hid
  subst hfields
  rfl

theorem update_ignores_payload_meta_witness :
    Patient.update store0 "now" none none none "0" payload0
      = Patient.update store0 "now" none none none "0" payloadWithMeta :=
  update_ignores_payload_meta store0 "now" none none none "0" payload0 payloadWithMeta
    (by decide) (by decide)

/-! ## The boolean arguments `active` and `deceased` -/

/-- Under the contract of the builders, the key `active` of the Patient search query is
written by the `active` step alone. -/
theorem patient_lookup_active {F : Type} (b : Builders F) (hb : b.FieldPaths) (args : Args) :
    (Patient.searchQuery b args).lookup "active"
      = (ifSet args.active
          (fun (v : String) (q : Query F) => q.set "active" (.bool (v == "true"))) []).lookup
          "active" := by
  have htok : ∀ (t field s : String), ¬ (field.data ++ ['.']) <+: "active".data →
      ∀ v, "active" ∉ (b.tokenQueryBuilder v t field s).map Prod.fst :=
    fun t field s h v => not_mem_keys_of_not_under _ _ _ (hb.token_under v t field s) h
  have href : ∀ (path : String), ¬ path.data <+: "active".data →
      ∀ v, "active" ∉ (b.referenceQueryBuilder v path).map Prod.fst :=
    fun path h v => not_mem_keys_of_not_under _ _ _ (hb.reference_under v path) h
  unfold Patient.searchQuery
  simp only []
  rw [lookup_ifSet_setAll _ _ _ _ (htok _ _ _ (by decide)),
    lookup_ifSet_setAll _ _ _ _ (htok _ _ _ (by decide)),
    lookup_ifSet_setAll _ _ _ _ (href _ (by decide)),
    lookup_ifSet_setAll _ _ _ _ (href _ (by decide)),
    lookup_ifSet_setAll _ _ _ _ (htok _ _ _ (by decide)),
    lookup_ifSet_setAll _ _ _ _ (htok _ _ _ (by decide)),
    lookup_ifSet_set _ _ _ _ _ (by decide),
    lookup_ifSet_setAll _ _ _ _ (href _ (by decide)),
    lookup_ifSet_set _ _ _ _ _ (by decide),
    lookup_ifSet_set _ _ _ _ _ (by decide),
    lookup_ifSet_setAll _ _ _ _ (htok _ _ _ (by decide)),
    lookup_ifSet_set _ _ _ _ _ (by decide),
    lookup_ifSet_set _ _ _ _ _ (by decide),
    lookup_ifSet_set _ _ _ _ _ (by decide),
    lookup_ifSet_setAll _ _ _ _ (htok _ _ _ (by decide)),
    lookup_ifSet_setAll _ _ _ _ (htok _ _ _ (by decide)),
    lookup_ifSet_set _ _ _ _ _ (by decide),
    lookup_ifSet_set _ _ _ _ _ (by decide),
    lookup_ifSet_set _ _ _ _ _ (by decide),
    lookup_ifSet_set _ _ _ _ _ (by decide),
    lookup_ifSet_set _ _ _ _ _ (by decide)]
  have hbelow : ∀ q : Query F, q.lookup "active" = none →
      ∀ arg : Option String,
      (ifSet arg (fun (v : String) (q : Query F) => q.set "active" (.bool (v == "true"))) q).lookup
          "active"
        = (ifSet arg (fun (v : String) (q : Query F) => q.set "active" (.bool (v == "true")))
            []).lookup "active" := by
    intro q hq arg
    unfold ifSet
    split
    · split
      · rw [hq]; rfl
      · rw [lookup_querySet_self, lookup_querySet_self]
    · rw [hq]; rfl
  apply hbelow
  rw [lookup_ifSet_set _ _ _ _ _ (by decide)]
  split
  · exact lookup_querySet_other _ _ _ _ (by decide)
  · rfl

/-- Under the contract of the builders, the key `deceasedBoolean` of the Patient search
query is written by the `deceased` step alone. -/
theorem patient_lookup_deceased {F : Type} (b : Builders F) (hb : b.FieldPaths)
    (args : Args) :
    (Patient.searchQuery b args).lookup "deceasedBoolean"
      = (ifSet args.deceased
          (fun (v : String) (q : Query F) => q.set "deceasedBoolean" (.bool (v == "true")))
          []).lookup "deceasedBoolean" := by
  have htok : ∀ (t field s : String), ¬ (field.data ++ ['.']) <+: "deceasedBoolean".data →
      ∀ v, "deceasedBoolean" ∉ (b.tokenQueryBuilder v t field s).map Prod.fst :=
    fun t field s h v => not_mem_keys_of_not_under _ _ _ (hb.token_under v t field s) h
  have href : ∀ (path : String), ¬ path.data <+: "deceasedBoolean".data →
      ∀ v, "deceasedBoolean" ∉ (b.referenceQueryBuilder v path).map Prod.fst :=
    fun path h v => not_mem_keys_of_not_under _ _ _ (hb.reference_under v path) h
  unfold Patient.searchQuery
  simp only []
  rw [lookup_ifSet_setAll _ _ _ _ (htok _ _ _ (by decide)),
    lookup_ifSet_setAll _ _ _ _ (htok _ _ _ (by decide)),
    lookup_ifSet_setAll _ _ _ _ (href _ (by decide)),
    lookup_ifSet_setAll _ _ _ _ (href _ (by decide)),
    lookup_ifSet_setAll _ _ _ _ (htok _ _ _ (by decide)),
    lookup_ifSet_setAll _ _ _ _ (htok _ _ _ (by decide)),
    lookup_ifSet_set _ _ _ _ _ (by decide),
    lookup_ifSet_setAll _ _ _ _ (href _ (by decide)),
    lookup_ifSet_set _ _ _ _ _ (by decide),
    lookup_ifSet_set _ _ _ _ _ (by decide),
    lookup_ifSet_setAll _ _ _ _ (htok _ _ _ (by decide))]
  have hbelow : ∀ q : Query F, q.lookup "deceasedBoolean" = none →
      ∀ arg : Option String,
      (ifSet arg
          (fun (v : String) (q : Query F) => q.set "deceasedBoolean" (.bool (v == "true")))
          q).lookup "deceasedBoolean"
        = (ifSet arg
            (fun (v : String) (q : Query F) => q.set "deceasedBoolean" (.bool (v == "true")))
            []).lookup "deceasedBoolean" := by
    intro q hq arg
    unfold ifSet
    split
    · split
      · rw [hq]; rfl
      · rw [lookup_querySet_self, lookup_querySet_self]
    · rw [hq]; rfl
  apply hbelow
  rw [lookup_ifSet_set _ _ _ _ _ (by decide),
    lookup_ifSet_set _ _ _ _ _ (by decide),
    lookup_ifSet_setAll _ _ _ _ (htok _ _ _ (by decide)),
    lookup_ifSet_setAll _ _ _ _ (htok _ _ _ (by decide)),
    lookup_ifSet_set _ _ _ _ _ (by decide),
    lookup_ifSet_set _ _ _ _ _ (by decide),
    lookup_ifSet_set _ _ _ _ _ (by decide),
    lookup_ifSet_set _ _ _ _ _ (by decide),
    lookup_ifSet_set _ _ _ _ _ (by decide),
    lookup_ifSet_set _ _ _ _ _ (by decide),
    lookup_ifSet_set _ _ _ _ _ (by decide)]
  split
  · exact lookup_querySet_other _ _ _ _ (by decide)
  · rfl

/-- C26: in the Patient search a non-empty `active` compiles to the boolean entry `active`
whose value is true exactly when the argument is the string `true`, a non-empty `deceased`
likewise to the entry `deceasedBoolean`, and a missing or empty argument leaves the query
without that entry. -/
theorem active_deceased_compile_to_booleans {F : Type} (b : Builders F) (hb : b.FieldPaths)
    (args : Args) :
    (∀ v, args.active = some v → v ≠ "" →
      (Patient.searchQuery b args).lookup "active" = some (.bool (decide (v = "true")))) ∧
    ((args.active = none ∨ args.active = some "") →
      (Patient.searchQuery b args).lookup "active" = none) ∧
    (∀ v, args.deceased = some v → v ≠ "" →
      (Patient.searchQuery b args).lookup "deceasedBoolean"
        = some (.bool (decide (v = "true")))) ∧
    ((args.deceased = none ∨ args.deceased = some "") →
      (Patient.searchQuery b args).lookup "deceasedBoolean" = none) := by
  refine ⟨fun v hv hne => ?_, fun h => ?_, fun v hv hne => ?_, fun h => ?_⟩
  · rw [patient_lookup_active b hb args, hv, ifSet_some v hne, lookup_querySet_self]
    rfl
  · rw [patient_lookup_active b hb args, ifSet_falsy _ h]
    rfl
  · rw [patient_lookup_deceased b hb args, hv, ifSet_some v hne, lookup_querySet_self]
    rfl
  · rw [patient_lookup_deceased b hb args, ifSet_falsy _ h]
    rfl

theorem active_deceased_compile_to_booleans_witness :
    (Patient.searchQuery sampleBuilders { active := some "TRUE", deceased := some "true" }).lookup
        "active" = some (.bool (decide ("TRUE" = "true"))) ∧
    (Patient.searchQuery sampleBuilders { active := some "TRUE", deceased := some "true" }).lookup
        "deceasedBoolean" = some (.bool (decide ("true" = "true"))) ∧
    decide ("TRUE" = "true") = false ∧ decide ("true" = "true") = true :=
  ⟨(active_deceased_compile_to_booleans sampleBuilders sampleBuilders_fieldPaths
      { active := some "TRUE", deceased := some "true" }).1 "TRUE" rfl (by decide),
    (active_deceased_compile_to_booleans sampleBuilders sampleBuilders_fieldPaths
      { active := some "TRUE", deceased := some "true" }).2.2.1 "true" rfl (by decide),
    by decide, by decide⟩

end FhirMongo
